import Mathlib

/-!
Verification of the contact-scraper repository (contact_scraper.py, batch_scraper.py)
against its natural-language specification.

The Python sources are shallowly embedded: strings are `List Char` (wrapped in
`String` at the interface), the file system holding chunk result artifacts is an
association list from chunk number to artifact, Python sets are modelled as
insertion-ordered duplicate-free lists, network I/O is a parameter (a fetch
oracle / a chunk-runner function), and exceptions are `Option`.  Every
definition is translated from the source; line numbers in doc comments refer to
the Python files.
-/

/-! ### Character predicates (Python `\s`, `\d`, `str.lower`, `\w`) -/

/-- ASCII whitespace as matched by Python `\s` and `str.strip()` (the sources
only ever deal with ASCII phone/URL text). -/
def isWS (c : Char) : Bool :=
  c == ' ' || c == '\t' || c == '\n' || c == '\r' || c == '\x0b' || c == '\x0c'

/-- Python `\d` on ASCII text. -/
def isDigitC (c : Char) : Bool :=
  '0' ≤ c && c ≤ '9'

/-- Python `\w` (word character) on ASCII text, used for `\b` boundaries. -/
def isWordC (c : Char) : Bool :=
  isDigitC c || ('a' ≤ c && c ≤ 'z') || ('A' ≤ c && c ≤ 'Z') || c == '_'

/-- Separator class `[\s.-]` of the French phone regexes. -/
def isSepC (c : Char) : Bool :=
  isWS c || c == '.' || c == '-'

/-- `pat` is a prefix of `s` (Python `str.startswith`). -/
def startsWithL : List Char → List Char → Bool
  | [], _ => true
  | _ :: _, [] => false
  | p :: ps, c :: cs => p == c && startsWithL ps cs

/-- Python `str.strip()`: drop whitespace from both ends. -/
def stripWS (l : List Char) : List Char :=
  ((l.dropWhile isWS).reverse.dropWhile isWS).reverse

/-- One attempted match of the regex `[\(\[]\s*0\s*[\)\]]` at the head of the
list (contact_scraper.py line 240).  Returns the remainder after the match.
The classes `\s*` are greedy; since whitespace is disjoint from `0` and from
the closing brackets the match is deterministic. -/
def matchParen0 : List Char → Option (List Char)
  | [] => none
  | c :: rest =>
    if c == '(' || c == '[' then
      match rest.dropWhile isWS with
      | '0' :: r2 =>
        match r2.dropWhile isWS with
        | c2 :: r4 => if c2 == ')' || c2 == ']' then some r4 else none
        | [] => none
      | _ => none
    else none

/-- Left-to-right non-overlapping deletion of `[\(\[]\s*0\s*[\)\]]` matches
(`re.sub(..., '', phone)`, contact_scraper.py line 240).  Fuel-indexed for
structural recursion; every match consumes at least three characters, so fuel
equal to the length of the list never runs out. -/
def sub0F : Nat → List Char → List Char
  | _, [] => []
  | 0, l => l
  | n + 1, c :: rest =>
    match matchParen0 (c :: rest) with
    | some r => sub0F n r
    | none => c :: sub0F n rest

/-- `re.sub(r'[\(\[]\s*0\s*[\)\]]', '', phone)` (contact_scraper.py line 240). -/
def sub0 (l : List Char) : List Char :=
  sub0F l.length l

/-! ### The COUNTRY_CODES dialing-prefix table (contact_scraper.py lines 21-122)

Only the key set matters to `normalize_phone_to_e164`; the ISO values are
used by `detect_country_from_phone`, which no claim exercises. -/

/-- Keys of the `COUNTRY_CODES` dict, in source order (the duplicate key
`'351'` of line 85 collapses, as in a Python dict literal). -/
def ccKeyStrings : List String :=
  ["33", "32", "41", "49", "44", "34", "39", "351", "31", "43", "45", "46",
   "47", "358", "353", "30", "48", "420", "36", "40", "421", "386", "385",
   "359", "370", "371", "372", "354", "356", "357", "352", "377", "378",
   "423", "376", "382", "381", "383", "387", "389", "355", "373", "380",
   "375", "7",
   "262", "590", "594", "596", "508", "681", "687", "689",
   "500", "350", "290", "247", "1284", "1345", "1441", "1664", "1649", "1264",
   "297", "599", "5999", "721",
   "1340", "1670", "1671", "1684", "1787", "1939",
   "299", "298",
   "672", "6189164",
   "682", "683", "690",
   "1", "52", "54", "55", "56", "57", "51", "58", "593", "591", "595", "598",
   "506", "507", "53", "509", "1809", "1829", "1849", "502", "503", "504",
   "505", "501",
   "1242", "1246", "1268", "1473", "1758", "1767", "1784", "1868", "1869",
   "1876",
   "86", "91", "81", "82", "886", "852", "853", "65", "60", "66", "84", "62",
   "63", "95", "855", "856", "673", "670", "92", "880", "94", "977", "975",
   "960", "93", "98", "964", "962", "961", "963", "972", "970", "971", "966",
   "968", "965", "973", "974", "967", "90", "994", "995", "374", "992",
   "993", "998", "996",
   "20", "212", "213", "216", "218", "249",
   "27", "254", "255", "256", "234", "233", "225", "221", "223", "226",
   "227", "228", "229", "230", "231", "232", "235", "236", "237", "238",
   "239", "240", "241", "242", "243", "244", "245", "246", "248", "250",
   "251", "252", "253", "257", "258", "260", "261", "263", "264", "265",
   "266", "267", "268", "269",
   "61", "64", "679", "675", "676", "677", "678", "685", "686", "688",
   "691", "692", "680"]

/-- The key set as character lists, for exact-string dict-membership tests. -/
def ccKeys : List (List Char) :=
  ccKeyStrings.map String.toList

/-! ### normalize_phone_to_e164 (contact_scraper.py lines 225-299) -/

/-- `phone = re.sub(r'[\(\[]\s*0\s*[\)\]]', '', phone)` — the value of the
local variable `phone` after line 240. -/
def cleanedL (phone : List Char) : List Char :=
  sub0 phone

/-- `phone.strip()` as tested on lines 243 and 248. -/
def str1L (phone : List Char) : List Char :=
  stripWS (cleanedL phone)

/-- `has_international_indicator` as set on lines 243-251 (before the
retroactive inference of lines 270-276). -/
def hasIntl0L (phone : List Char) : Bool :=
  startsWithL ['0', '0'] (str1L phone) || startsWithL ['+'] (str1L phone)

/-- The value of `phone` after the `00` → `+` rewrite of line 245 (the `elif`
and `else` branches leave `phone` as it was after line 240). -/
def p2L (phone : List Char) : List Char :=
  if startsWithL ['0', '0'] (str1L phone) = true then
    '+' :: (str1L phone).drop 2
  else cleanedL phone

/-- `digits` as computed on lines 254-258: strip all non-digits; in the
`+`-leading branch the kept `+` marker is immediately removed again by
`lstrip('+')`, so both branches reduce to a digit filter. -/
def digitsL (phone : List Char) : List Char :=
  if startsWithL ['+'] (p2L phone) = true then
    ((p2L phone).drop 1).filter isDigitC
  else (p2L phone).filter isDigitC

/-- `has_international_indicator` after the retroactive check of lines
270-276: with 11+ digits and no explicit marker, a known dialing code of
length 3, 2 or 1 at the front flips the flag. -/
def hasIntlL (phone : List Char) : Bool :=
  if hasIntl0L phone = false ∧ 11 ≤ (digitsL phone).length then
    ccKeys.contains ((digitsL phone).take 3) ||
      ccKeys.contains ((digitsL phone).take 2) ||
      ccKeys.contains ((digitsL phone).take 1)
  else hasIntl0L phone

/-- Lines 281-282: `if digits.startswith('330') and len(digits) == 12:
digits = '33' + digits[3:]`. -/
def repair330 (d : List Char) : List Char :=
  if startsWithL ['3', '3', '0'] d = true ∧ d.length = 12 then
    '3' :: '3' :: d.drop 3
  else d

/-- Lines 285-290: `re.match(r'^(\d{2,3})0(\d{9})$', digits)` with a known
country code removes the stray `0`.  On an all-digit string the anchored
greedy match succeeds exactly for length 13 with `digits[3] == '0'`
(group of 3) or length 12 with `digits[2] == '0'` (group of 2, after the
greedy group of 3 fails against the `$` anchor). -/
def genericRepair (d : List Char) : List Char :=
  if d.length = 13 ∧ d.get? 3 = some '0' then
    if ccKeys.contains (d.take 3) = true then d.take 3 ++ d.drop 4 else d
  else if d.length = 12 ∧ d.get? 2 = some '0' then
    if ccKeys.contains (d.take 2) = true then d.take 2 ++ d.drop 3 else d
  else d

/-- `normalize_phone_to_e164` (contact_scraper.py lines 225-299) over
character lists.  Returns `none` for the function's `None`. -/
def normalizeL (phone : List Char) : Option (List Char) :=
  if phone = [] then none
  else if (digitsL phone).length < 9 ∨ 15 < (digitsL phone).length then none
  else if startsWithL ['0'] (digitsL phone) = true ∧ (digitsL phone).length = 10 ∧
      hasIntl0L phone = false then
    some (digitsL phone)
  else if hasIntlL phone = true then
    if 10 ≤ (genericRepair (repair330 (digitsL phone))).length then
      some ('+' :: genericRepair (repair330 (digitsL phone)))
    else none
  else some (digitsL phone)

/-- `normalize_phone_to_e164` on strings. -/
def normalize_phone_to_e164 (phone : String) : Option String :=
  (normalizeL phone.toList).map List.asString

/-! ### extract_phones_from_html (contact_scraper.py lines 301-378) -/

/-- Python `str.replace(pat, repl)`: left-to-right non-overlapping
replacement of every occurrence.  Fuel-indexed (the patterns used are
non-empty, so fuel equal to the length suffices). -/
def replaceAllF : Nat → List Char → List Char → List Char → List Char
  | _, _, _, [] => []
  | 0, _, _, l => l
  | n + 1, pat, repl, c :: rest =>
    if startsWithL pat (c :: rest) = true then
      repl ++ replaceAllF n pat repl ((c :: rest).drop pat.length)
    else c :: replaceAllF n pat repl rest

/-- Python `str.replace`. -/
def replaceAllL (pat repl l : List Char) : List Char :=
  replaceAllF l.length pat repl l

/-- Python substring test `pat in l` (fuel-indexed scan). -/
def containsSubF : Nat → List Char → List Char → Bool
  | _, pat, [] => startsWithL pat []
  | 0, _, _ => false
  | n + 1, pat, c :: rest => startsWithL pat (c :: rest) || containsSubF n pat rest

/-- Python substring test `pat in l`. -/
def containsSub (pat l : List Char) : Bool :=
  containsSubF (l.length + 1) pat l

/-- Python `text.split('\n')` (keeps empty pieces). -/
def splitNL : List Char → List (List Char)
  | [] => [[]]
  | '\n' :: rest => [] :: splitNL rest
  | c :: rest =>
    match splitNL rest with
    | [] => [[c]]
    | g :: gs => (c :: g) :: gs

/-- Insertion into a Python set modelled as an insertion-ordered
duplicate-free list (`set.add`). -/
def insertUniq (a : List String) (x : String) : List String :=
  if a.contains x then a else a ++ [x]

/-- One attempted match of `[-+]?\d{1,3}\.\d{4,}` at the head of the list,
returning the match length.  The greedy `\d{1,3}` forces the dot to sit at
the end of the leading digit run, which must therefore have length 1-3. -/
def gpsNumMatchAt (l : List Char) : Option Nat :=
  let sgn : Nat := if startsWithL ['-'] l = true || startsWithL ['+'] l = true then 1 else 0
  let r0 := l.drop sgn
  let ds := r0.takeWhile isDigitC
  let r1 := r0.dropWhile isDigitC
  if 1 ≤ ds.length ∧ ds.length ≤ 3 then
    match r1 with
    | '.' :: r2 =>
      let fs := r2.takeWhile isDigitC
      if 4 ≤ fs.length then some (sgn + ds.length + 1 + fs.length) else none
    | _ => none
  else none

/-- Number of `re.findall(r'[-+]?\d{1,3}\.\d{4,}', text)` matches
(left-to-right, non-overlapping). -/
def gpsCountF : Nat → List Char → Nat
  | 0, _ => 0
  | _, [] => 0
  | n + 1, l@(_ :: rest) =>
    match gpsNumMatchAt l with
    | some k => 1 + gpsCountF n (l.drop k)
    | none => gpsCountF n rest

/-- `is_gps_coordinate` (contact_scraper.py lines 210-223): two or more
decimal numbers with 4+ fractional digits, or a latitude/longitude keyword.
The boolean `re.search(r'(latitude|longitude|lat|lon|coords?|gps)', ...)`
is rendered as the disjunction of substring tests for each alternative
(`coords?` searches as its mandatory part `coord`). -/
def is_gps_coordinate (l : List Char) : Bool :=
  if 2 ≤ gpsCountF l.length l then true
  else
    let low := l.map Char.toLower
    containsSub ("latitude".toList) low || containsSub ("longitude".toList) low ||
      containsSub ("lat".toList) low || containsSub ("lon".toList) low ||
      containsSub ("coord".toList) low || containsSub ("gps".toList) low

/-- The chunk-skip test of contact_scraper.py line 339:
`re.search(r'(°|latitude|longitude|coords)', chunk.lower())`. -/
def hasGpsMarker (l : List Char) : Bool :=
  let low := l.map Char.toLower
  containsSub ['°'] low || containsSub ("latitude".toList) low ||
    containsSub ("longitude".toList) low || containsSub ("coords".toList) low

/-- `(?:[\s.-]*\d{2}){n}`: n repetitions of greedy separators followed by two
digits.  Separators and digits are disjoint, so the match is deterministic.
Returns (matched text, remainder). -/
def matchPairs : Nat → List Char → Option (List Char × List Char)
  | 0, l => some ([], l)
  | n + 1, l =>
    let seps := l.takeWhile isSepC
    match l.dropWhile isSepC with
    | a :: b :: r2 =>
      if isDigitC a = true ∧ isDigitC b = true then
        match matchPairs n r2 with
        | some (m, r) => some (seps ++ a :: b :: m, r)
        | none => none
      else none
    | _ => none

/-- Match of `\+33\s*[1-9](?:[\s.-]*\d{2}){4}` at the head of the list. -/
def matchP1At (l : List Char) : Option (List Char × List Char) :=
  if startsWithL ("+33".toList) l = true then
    let r0 := l.drop 3
    let ws := r0.takeWhile isWS
    match r0.dropWhile isWS with
    | c :: r2 =>
      if '1' ≤ c ∧ c ≤ '9' then
        match matchPairs 4 r2 with
        | some (m, r) => some ('+' :: '3' :: '3' :: (ws ++ c :: m), r)
        | none => none
      else none
    | [] => none
  else none

/-- Match of `0[1-9](?:[\s.-]*\d{2}){4}` at the head of the list. -/
def matchP2At (l : List Char) : Option (List Char × List Char) :=
  match l with
  | '0' :: c :: r2 =>
    if '1' ≤ c ∧ c ≤ '9' then
      match matchPairs 4 r2 with
      | some (m, r) => some ('0' :: c :: m, r)
      | none => none
    else none
  | _ => none

/-- Match of `\b0[1-9]\d{8}\b` given the character preceding the position
(`none` at the start of the chunk). -/
def matchP3At (prev : Option Char) (l : List Char) : Option (List Char × List Char) :=
  if (match prev with | some p => !isWordC p | none => true) = true then
    match l with
    | '0' :: c :: rest =>
      if ('1' ≤ c ∧ c ≤ '9') ∧ (rest.take 8).length = 8 ∧
          (rest.take 8).all isDigitC = true then
        if (match (rest.drop 8).head? with
            | some nx => !isWordC nx
            | none => true) = true then
          some ('0' :: c :: rest.take 8, rest.drop 8)
        else none
      else none
    | _ => none
  else none

/-- `re.findall` of pattern 1, left-to-right non-overlapping. -/
def findallP1F : Nat → List Char → List (List Char)
  | 0, _ => []
  | _, [] => []
  | n + 1, l@(_ :: rest) =>
    match matchP1At l with
    | some (m, r) => m :: findallP1F n r
    | none => findallP1F n rest

/-- `re.findall` of pattern 2. -/
def findallP2F : Nat → List Char → List (List Char)
  | 0, _ => []
  | _, [] => []
  | n + 1, l@(_ :: rest) =>
    match matchP2At l with
    | some (m, r) => m :: findallP2F n r
    | none => findallP2F n rest

/-- `re.findall` of pattern 3, threading the previous character for the
word-boundary test. -/
def findallP3F : Nat → Option Char → List Char → List (List Char)
  | 0, _, _ => []
  | _, _, [] => []
  | n + 1, prev, l@(c :: rest) =>
    match matchP3At prev l with
    | some (m, r) => m :: findallP3F n m.getLast? r
    | none => findallP3F n (some c) rest

/-- `re.match(r'\d+\.\d{4,}', s)`: anchored, so the dot must terminate the
leading digit run (which must be non-empty) and be followed by 4+ digits. -/
def decimalLike (l : List Char) : Bool :=
  let ds := l.takeWhile isDigitC
  match l.dropWhile isDigitC with
  | '.' :: r2 => 1 ≤ ds.length && 4 ≤ (r2.takeWhile isDigitC).length
  | _ => false

/-- Per-candidate filtering and normalization of a text regex match
(contact_scraper.py lines 344-364): skip decimal-number look-alikes, short
digit cores, and candidates not starting with `+`/`0`; keep the normalized
form. -/
def processMatch (phones : List String) (m : List Char) : List String :=
  if (m.contains '.' || m.contains ',') &&
      decimalLike (m.map (fun c => if c == ',' then '.' else c)) then phones
  else if (m.filter isDigitC).length < 9 then phones
  else if !(startsWithL ['+'] (stripWS m) || startsWithL ['0'] (stripWS m)) then phones
  else
    match normalizeL m with
    | some n => insertUniq phones n.asString
    | none => phones

/-- Text scanning of one line-like chunk (contact_scraper.py lines 333-364):
GPS-looking chunks are skipped entirely, then the three phone patterns are
matched in order. -/
def textPhonesChunk (phones : List String) (chunk : List Char) : List String :=
  if is_gps_coordinate chunk then phones
  else if hasGpsMarker chunk then phones
  else
    (findallP1F chunk.length chunk ++ findallP2F chunk.length chunk ++
      findallP3F chunk.length none chunk).foldl processMatch phones

/-- The id-sequence filter of contact_scraper.py lines 366-376: reject a
phone whose digits are a single repeated digit or a run of
`'0123456789' * 2`. -/
def filterIdLike (phones : List String) : List String :=
  phones.foldl (fun acc phone =>
    let digits := phone.toList.filter isDigitC
    if (match digits with
        | [] => false
        | c :: rest => rest.all (fun x => x == c)) then acc
    else if containsSub digits ("01234567890123456789".toList) then acc
    else acc ++ [phone]) []

/-- The tel/call/callto/phone link loop of contact_scraper.py lines 306-317:
first matching prefix is stripped everywhere (`str.replace`), the rest is
stripped and normalized.  `hrefs` are the page's `<a href=...>` values. -/
def extractLinkPhones (hrefs : List String) : List String :=
  hrefs.foldl (fun acc href =>
    let h := href.toList
    if startsWithL ("tel:".toList) h || startsWithL ("call:".toList) h ||
        startsWithL ("callto:".toList) h || startsWithL ("phone:".toList) h then
      let phone :=
        if startsWithL ("tel:".toList) h = true then
          stripWS (replaceAllL ("tel:".toList) [] h)
        else if startsWithL ("call:".toList) h = true then
          stripWS (replaceAllL ("call:".toList) [] h)
        else if startsWithL ("callto:".toList) h = true then
          stripWS (replaceAllL ("callto:".toList) [] h)
        else
          stripWS (replaceAllL ("phone:".toList) [] h)
      match normalizeL phone with
      | some n => insertUniq acc n.asString
      | none => acc
    else acc) []

/-- `extract_phones_from_html` (contact_scraper.py lines 301-378): link-based
phones take strict priority; only when no link yields a normalizable phone is
the visible text scanned, chunk by chunk, and the id-like filter applied. -/
def extract_phones_from_html (hrefs : List String) (text : String) : List String :=
  let linkPhones := extractLinkPhones hrefs
  if linkPhones ≠ [] then linkPhones
  else filterIdLike ((splitNL text.toList).foldl textPhonesChunk [])

/-! ### deduplicate_phones (contact_scraper.py lines 511-547) and the inline
"final safety check" of process_spreadsheet (lines 615-628) -/

/-- The comparison core of a phone: last 9 digits, or all digits when there
are fewer than 9 (contact_scraper.py lines 533-539 and 620-622). -/
def coreOf (p : String) : List Char :=
  let digits := p.toList.filter isDigitC
  if 9 ≤ digits.length then digits.drop (digits.length - 9) else digits

/-- The core-dedup loop of `deduplicate_phones` (lines 529-545): keep the
first phone for each unseen core. -/
def dedupGo : List String → List (List Char) → List String → List String
  | [], _, acc => acc
  | p :: rest, seen, acc =>
    if coreOf p ∈ seen then dedupGo rest seen acc
    else dedupGo rest (coreOf p :: seen) (acc ++ [p])

/-- The re-normalization pass of `deduplicate_phones` (lines 522-526):
`norm = normalize_phone_to_e164(phone); if norm: normalized.append(norm)` —
the falsy values `None` and `''` are dropped. -/
def normStep (acc : List String) (p : String) : List String :=
  match normalize_phone_to_e164 p with
  | some n => if n ≠ "" then acc ++ [n] else acc
  | none => acc

/-- `deduplicate_phones` (contact_scraper.py lines 511-547): re-normalize
every entry, drop the falsy ones, then dedup by core. -/
def deduplicate_phones (l : List String) : List String :=
  if l = [] then []
  else dedupGo (l.foldl normStep []) [] []

/-- The inline "final safety check" dedup pass of `process_spreadsheet`
(contact_scraper.py lines 615-628): same core dedup, wrapped in an
`if phone:` emptiness guard. -/
def safetyGo : List String → List (List Char) → List String → List String
  | [], _, acc => acc
  | p :: rest, seen, acc =>
    if p ≠ "" then
      if coreOf p ∈ seen then safetyGo rest seen acc
      else safetyGo rest (coreOf p :: seen) (acc ++ [p])
    else safetyGo rest seen acc

/-- The whole inline pass, `seen_cores = set(); final_phones = []; ...`. -/
def finalSafetyCheck (phones : List String) : List String :=
  safetyGo phones [] []

/-! ### scrape_website (contact_scraper.py lines 410-509)

Network I/O is abstracted by a fetch oracle: fetching a URL either yields a
parsed page — its extracted emails and phones (the results of
`extract_emails_from_html` / `extract_phones_from_html`) and the behaviour of
`find_contact_page_links` on it — or raises one of the transport exceptions
the source classifies.  A parse/extraction failure of the homepage (lines
442-446, all before the first accumulator update) is observationally the
`otherError` case with both sets still empty.  The one statement after the
homepage update that sits outside every inner `try` is the
`find_contact_page_links` call of line 460: its `urljoin`/`urlparse` (line
399) raises `ValueError` on a malformed keyword-matching href (for example
`http://[contact`), and that exception reaches the generic outer handler of
lines 507-509, which returns the *current*, possibly non-empty, accumulator
sets with result `Error`.  A page therefore carries its contact-page
candidates as `Option (List String)`: `none` models a raising discovery
call, `some ls` its normal return. -/

/-- A fetched-and-parsed page, described by what the extractors return on it
and by what `find_contact_page_links` does on it (`none`: the discovery call
raises; `some ls`: it returns the candidate list `ls`). -/
structure Page where
  emails : List String
  phones : List String
  contactLinks : Option (List String)
deriving DecidableEq

/-- Outcome of one `requests.get` + `raise_for_status`. -/
inductive FetchOutcome where
  | ok (page : Page)
  | timeout
  | connectionFailed
  | httpError
  | otherError
deriving DecidableEq

/-- The value returned by `scrape_website`, plus (as a ghost field for the
temporal claims) the list of URLs passed to `requests.get`, in order. -/
structure ScrapeResult where
  emails : List String
  phones : List String
  websiteStatus : String
  scrapingResult : String
  fetched : List String
deriving DecidableEq

/-- `normalize_url` (contact_scraper.py lines 176-181). -/
def normalize_url (url : String) : String :=
  let u := stripWS url.toList
  if startsWithL ("http://".toList) u || startsWithL ("https://".toList) u then
    u.asString
  else ("https://".toList ++ u).asString

/-- Python set-union `s.update(l)` on the insertion-ordered set model. -/
def unionL (a b : List String) : List String :=
  b.foldl insertUniq a

/-- The contact-page loop of contact_scraper.py lines 462-487: before each
candidate the early-stop check runs; a fetch failure is caught by the inner
`except` and the loop continues.  Returns the accumulated sets and the list
of URLs fetched by the loop. -/
def contactLoop (fetch : String → FetchOutcome) :
    List String → List String → List String → List String × List String × List String
  | [], es, ps => (es, ps, [])
  | l :: ls, es, ps =>
    if es ≠ [] ∧ ps ≠ [] then (es, ps, [])
    else
      match fetch l with
      | .ok page =>
        let r := contactLoop fetch ls (unionL es page.emails) (unionL ps page.phones)
        (r.1, r.2.1, l :: r.2.2)
      | _ =>
        let r := contactLoop fetch ls es ps
        (r.1, r.2.1, l :: r.2.2)

/-- The contact-page exploration and final classification of contact_scraper.py
lines 462-495, given the accumulator sets after the homepage and the
candidate list returned by a non-raising `find_contact_page_links`.  (The
loop value is written out by projection instead of a local binding.) -/
def exploreLinks (fetch : String → FetchOutcome) (es ps : List String)
    (homeTrace : List String) (links : List String) : ScrapeResult :=
  if (contactLoop fetch links es ps).1 ≠ [] ∨
      (contactLoop fetch links es ps).2.1 ≠ [] then
    ⟨(contactLoop fetch links es ps).1, (contactLoop fetch links es ps).2.1,
      "OK", "Success", homeTrace ++ (contactLoop fetch links es ps).2.2⟩
  else
    ⟨(contactLoop fetch links es ps).1, (contactLoop fetch links es ps).2.1,
      "OK", "No Contacts Found", homeTrace ++ (contactLoop fetch links es ps).2.2⟩

/-- Lines 442-495: homepage extraction, early stop, contact-page discovery
and exploration, final classification.  `homeTrace` is the list of fetches
already performed; `all_emails`/`all_phones` after the homepage update are
`unionL [] page.emails` / `unionL [] page.phones`.  When the
`find_contact_page_links` call of line 460 raises
(`page.contactLinks = none`), the exception escapes to the generic handler
of lines 507-509, which returns the *current* accumulator sets with
`"Unavailable"`/`"Error"` — a point reachable only when the early-stop
check of line 455 failed, i.e. when not both sets are non-empty. -/
def afterHomepage (fetch : String → FetchOutcome) (page : Page)
    (homeTrace : List String) : ScrapeResult :=
  if unionL [] page.emails ≠ [] ∧ unionL [] page.phones ≠ [] then
    ⟨unionL [] page.emails, unionL [] page.phones, "OK", "Success", homeTrace⟩
  else
    match page.contactLinks with
    | none =>
      ⟨unionL [] page.emails, unionL [] page.phones, "Unavailable", "Error",
        homeTrace⟩
    | some links =>
      exploreLinks fetch (unionL [] page.emails) (unionL [] page.phones)
        homeTrace links

/-- Classification of a homepage-fetch failure by the outer handlers
(contact_scraper.py lines 497-509), specialized to the two fetch points that
precede the first accumulator update (lines 429-439): there `all_emails` and
`all_phones` are still the empty sets of lines 412-413, so the handlers'
`list(all_emails), list(all_phones)` is `[], []`.  The only handler-reachable
point with non-empty accumulators — a raising `find_contact_page_links` —
is modelled inside `afterHomepage`. -/
def classifyFailure (f : FetchOutcome) (trace : List String) : ScrapeResult :=
  match f with
  | .timeout => ⟨[], [], "Unavailable", "Timeout", trace⟩
  | .connectionFailed => ⟨[], [], "Unavailable", "Connection Failed", trace⟩
  | .httpError => ⟨[], [], "Unavailable", "Does Not Exist", trace⟩
  | .otherError => ⟨[], [], "Unavailable", "Error", trace⟩
  | .ok _ => ⟨[], [], "Unavailable", "Error", trace⟩

/-- `url.replace('https://', 'http://')` of contact_scraper.py line 434,
applied to the normalized URL. -/
def httpFallback (url0 : String) : String :=
  (replaceAllL ("https://".toList) ("http://".toList) (normalize_url url0).toList).asString

/-- `scrape_website` (contact_scraper.py lines 410-509).  Any failure of the
first (HTTPS) request triggers one HTTP fallback whose own failure is what
the outer handlers classify; a non-HTTPS first failure is re-raised as is. -/
def scrape_website (fetch : String → FetchOutcome) (url0 : String) : ScrapeResult :=
  match fetch (normalize_url url0) with
  | .ok page => afterHomepage fetch page [normalize_url url0]
  | f1 =>
    if startsWithL ("https://".toList) (normalize_url url0).toList then
      match fetch (httpFallback url0) with
      | .ok page => afterHomepage fetch page [normalize_url url0, httpFallback url0]
      | f2 => classifyFailure f2 [normalize_url url0, httpFallback url0]
    else classifyFailure f1 [normalize_url url0]

/-- The classification/extraction invariant `scrape_website` actually
maintains: `Success` rows carry at least one contact; rows carrying a
contact are classified `Success` or `Error`; `Timeout`, `Connection
Failed`, `Does Not Exist` and `No Contacts Found` rows carry none; and an
`Error` row never carries both kinds (the raising discovery call is only
reachable when the early-stop check failed). -/
def scrapeInv (r : ScrapeResult) : Prop :=
  (r.scrapingResult = "Success" → (r.emails ≠ [] ∨ r.phones ≠ [])) ∧
  ((r.emails ≠ [] ∨ r.phones ≠ []) →
    r.scrapingResult = "Success" ∨ r.scrapingResult = "Error") ∧
  ((r.scrapingResult = "Timeout" ∨ r.scrapingResult = "Connection Failed" ∨
      r.scrapingResult = "Does Not Exist" ∨
      r.scrapingResult = "No Contacts Found") →
    r.emails = [] ∧ r.phones = []) ∧
  (r.scrapingResult = "Error" → ¬(r.emails ≠ [] ∧ r.phones ≠ []))

/-! ### The batch pipeline (batch_scraper.py)

The results directory is an association list from chunk number to the state
of `chunk_{n:03d}_contacts.csv`: present but unreadable (`pd.read_csv`
raises), or a parsed table of rows.  Absence from the list is a missing
file.  Only the columns the batch code reads are modelled; an empty string
stands for an empty/NaN cell. -/

/-- One row of a chunk result artifact. -/
structure Row where
  website_status : String
  scraping_result : String
  email_primary : String
  phone_primary : String
deriving DecidableEq

/-- State of one result file on disk. -/
inductive Artifact where
  | unparseable
  | table (rows : List Row)
deriving DecidableEq

/-- The results directory. -/
abbrev Dir := List (Nat × Artifact)

/-- File lookup by chunk number. -/
def lookupArt (d : Dir) (n : Nat) : Option Artifact :=
  (d.find? (fun e => e.1 == n)).map (fun e => e.2)

/-- `is_chunk_completed` (batch_scraper.py lines 213-225): the result file
exists, parses, and has at least one data row. -/
def is_chunk_completed (d : Dir) (n : Nat) : Bool :=
  match lookupArt d n with
  | none => false
  | some .unparseable => false
  | some (.table rows) => decide (0 < rows.length)

/-- The `stats` counters of the progress record (batch_scraper.py lines
73-85 and 119-131). -/
structure Stats where
  total_processed : Nat
  websites_ok : Nat
  websites_unavailable : Nat
  success : Nat
  no_contacts : Nat
  emails_found : Nat
  phones_found : Nat
  timeout : Nat
  connection_failed : Nat
  does_not_exist : Nat
  error : Nat
deriving DecidableEq

/-- The all-zero counters. -/
def zeroStats : Stats :=
  ⟨0, 0, 0, 0, 0, 0, 0, 0, 0, 0, 0⟩

/-- Contribution of one readable result file to the aggregate counters
(batch_scraper.py lines 135-157); an unreadable file is skipped with a
warning. -/
def addFileStats (s : Stats) (a : Artifact) : Stats :=
  match a with
  | .unparseable => s
  | .table rows =>
    { total_processed := s.total_processed + rows.length
      websites_ok :=
        s.websites_ok + (rows.filter (fun r => r.website_status == "OK")).length
      websites_unavailable :=
        s.websites_unavailable +
          (rows.filter (fun r => r.website_status == "Unavailable")).length
      success :=
        s.success + (rows.filter (fun r => r.scraping_result == "Success")).length
      no_contacts :=
        s.no_contacts +
          (rows.filter (fun r => r.scraping_result == "No Contacts Found")).length
      emails_found :=
        s.emails_found + (rows.filter (fun r => !(r.email_primary == ""))).length
      phones_found :=
        s.phones_found + (rows.filter (fun r => !(r.phone_primary == ""))).length
      timeout :=
        s.timeout + (rows.filter (fun r => r.scraping_result == "Timeout")).length
      connection_failed :=
        s.connection_failed +
          (rows.filter (fun r => r.scraping_result == "Connection Failed")).length
      does_not_exist :=
        s.does_not_exist +
          (rows.filter (fun r => r.scraping_result == "Does Not Exist")).length
      error :=
        s.error + (rows.filter (fun r => r.scraping_result == "Error")).length }

/-- Insertion by chunk number, modelling the `sorted(...glob(...))` order
(zero-padded names sort numerically). -/
def insertByFst (e : Nat × Artifact) : Dir → Dir
  | [] => [e]
  | f :: rest => if e.1 ≤ f.1 then e :: f :: rest else f :: insertByFst e rest

/-- The directory in glob order. -/
def sortByFst (d : Dir) : Dir :=
  d.foldr insertByFst []

/-- `calculate_stats_from_results` (batch_scraper.py lines 117-159). -/
def calculate_stats_from_results (d : Dir) : Stats :=
  (sortByFst d).foldl (fun s e => addFileStats s e.2) zeroStats

/-- The progress record (`progress.json`). -/
structure Progress where
  total_chunks : Nat
  chunk_size : Nat
  completed_chunks : List Nat
  last_run : Option String
  stats : Stats
deriving DecidableEq

/-- Insertion into a strictly ascending duplicate-free list: with `foldr`
this models Python `sorted(list(set(l)))`. -/
def insData (n : Nat) : List Nat → List Nat
  | [] => [n]
  | m :: rest =>
    if n < m then n :: m :: rest
    else if n = m then m :: rest
    else m :: insData n rest

/-- Python `sorted(list(set(l)))` for lists of ints. -/
def sortedDedup (l : List Nat) : List Nat :=
  l.foldr insData []

/-- The fresh progress record of batch_scraper.py lines 68-86. -/
def defaultProgress : Progress :=
  ⟨0, 50, [], none, zeroStats⟩

/-- `load_progress` (batch_scraper.py lines 40-86): deduplicate the persisted
completed list, re-verify each member against its result artifact, and on any
discrepancy keep only the verified members and recompute the stats from the
artifacts (the accompanying `save_progress` write is a side effect on disk,
not on the returned record). -/
def load_progress (saved : Option Progress) (d : Dir) : Progress :=
  match saved with
  | none => defaultProgress
  | some p =>
    if ((sortedDedup p.completed_chunks).filter
        (fun n => is_chunk_completed d n)).length ≠
        (sortedDedup p.completed_chunks).length then
      { p with
          completed_chunks := (sortedDedup p.completed_chunks).filter
            (fun n => is_chunk_completed d n)
          stats := calculate_stats_from_results d }
    else { p with completed_chunks := sortedDedup p.completed_chunks }

/-- The chunk-selection condition of batch_scraper.py line 235:
`i not in completed_chunks or not is_chunk_completed(i)`. -/
def chunkCond (completed : List Nat) (d : Dir) (i : Nat) : Bool :=
  !(completed.contains i) || !(is_chunk_completed d i)

/-- The selection loop of batch_scraper.py lines 233-238: append each
candidate passing the condition and break as soon as the requested count is
reached (note that the count check runs after the append). -/
def selectGo (cond : Nat → Bool) (num : Nat) : List Nat → List Nat → List Nat
  | [], acc => acc
  | i :: rest, acc =>
    if cond i then
      if num ≤ acc.length + 1 then acc ++ [i]
      else selectGo cond num rest (acc ++ [i])
    else selectGo cond num rest acc

/-- `chunks_to_process` as computed by `process_chunks`. -/
def selectChunks (num total : Nat) (completed : List Nat) (d : Dir) : List Nat :=
  selectGo (chunkCond completed d) num (List.range' 1 total) []

/-- Chunk-selection rule as the specification words it (spec §4.6): "scans
chunk IDs 1..total in order and selects the first N whose result artifact
does not yet satisfy the verified-complete predicate".  Stated for
comparison with `selectChunks`, which is what the code does. -/
def specSelection (num total : Nat) (d : Dir) : List Nat :=
  ((List.range' 1 total).filter (fun i => !(is_chunk_completed d i))).take num

/-- One iteration of the processing loop of batch_scraper.py lines 248-278.
The `runner` abstracts the `scraper.process_spreadsheet` call: it maps the
chunk number and the current results directory to the new directory state,
or `none` when an exception escapes into the `except` clause (which logs and
continues).  Note that `process_spreadsheet` itself catches read and save
errors internally and returns normally, so a `some` outcome does *not*
guarantee that a result artifact was written.  On a normal return the chunk
number is added to the completed set and the stats are recomputed from the
result files. -/
def runStep (runner : Nat → Dir → Option Dir) : Progress × Dir → Nat → Progress × Dir
  | (p, d), chunk =>
    match runner chunk d with
    | none => (p, d)
    | some d2 =>
      ({ p with
          completed_chunks := sortedDedup (p.completed_chunks ++ [chunk])
          stats := calculate_stats_from_results d2 }, d2)

/-- `process_chunks` (batch_scraper.py lines 227-311): select the chunks,
then run them in order, marking each normally-returning run as completed. -/
def process_chunks (runner : Nat → Dir → Option Dir) (num : Nat) (p : Progress)
    (d : Dir) : Progress × Dir :=
  (selectChunks num p.total_chunks p.completed_chunks d).foldl (runStep runner) (p, d)

/-! ### Concrete instances used by witnesses and counterexamples -/

/-- A sample successful result row. -/
def row0 : Row :=
  ⟨"OK", "Success", "info@example.com", "+33491541952"⟩

/-- A directory holding a verified-complete artifact for chunk 1 only. -/
def dirOne : Dir :=
  [(1, Artifact.table [row0])]

/-- A chunk runner modelling a `process_spreadsheet` call that returns
normally but persisted nothing — exactly what happens when its save step
fails (contact_scraper.py lines 676-685 catch the exception and return). -/
def runnerNoWrite : Nat → Dir → Option Dir :=
  fun _ d => some d

/-- A chunk runner modelling a `process_spreadsheet` call that writes a
one-row result artifact for its chunk. -/
def runnerWrites : Nat → Dir → Option Dir :=
  fun n d => some ((n, Artifact.table [row0]) :: d)

/-- An initial progress record for a one-chunk input. -/
def progress1 : Progress :=
  ⟨1, 50, [], none, zeroStats⟩

/-- An initial progress record for a two-chunk input. -/
def progress2 : Progress :=
  ⟨2, 50, [], none, zeroStats⟩

/-- A persisted progress record with a duplicated and a stale entry. -/
def progressDup : Progress :=
  ⟨3, 50, [1, 1, 2], none, zeroStats⟩

/-- A page on which both extractors succeed. -/
def pageBoth : Page :=
  ⟨["info@example.com"], ["+33491541952"], some ["https://example.com/contact"]⟩

/-- A fetch oracle that always returns `pageBoth`. -/
def fetchAlwaysOk : String → FetchOutcome :=
  fun _ => FetchOutcome.ok pageBoth

/-- A page whose homepage yields one email and no phone and whose
`find_contact_page_links` call raises (a keyword-matching href such as
`http://[contact` makes `urlparse` throw `ValueError: Invalid IPv6 URL`). -/
def pageDiscoveryError : Page :=
  ⟨["info@example.com"], [], none⟩

/-- A fetch oracle that always returns `pageDiscoveryError`. -/
def fetchDiscoveryError : String → FetchOutcome :=
  fun _ => FetchOutcome.ok pageDiscoveryError

/-! ### Basic lemmas about the character-list operations -/

theorem dropWhile_eq_self_of_all {p : Char → Bool} {l : List Char}
    (h : ∀ c ∈ l, p c = false) : l.dropWhile p = l := by
  cases l with
  | nil => rfl
  | cons c rest => simp [List.dropWhile_cons, h c (List.mem_cons_self c rest)]

theorem stripWS_eq_self {l : List Char} (h : ∀ c ∈ l, isWS c = false) :
    stripWS l = l := by
  unfold stripWS
  rw [dropWhile_eq_self_of_all h,
    dropWhile_eq_self_of_all (fun c hc => h c (List.mem_reverse.mp hc)),
    List.reverse_reverse]

theorem sub0F_eq_self (n : Nat) (l : List Char)
    (h : ∀ c ∈ l, c ≠ '(' ∧ c ≠ '[') : sub0F n l = l := by
  induction n generalizing l with
  | zero => cases l <;> rfl
  | succ n ih =>
    cases l with
    | nil => rfl
    | cons c rest =>
      have hc := h c (List.mem_cons_self c rest)
      have hm : matchParen0 (c :: rest) = none := by
        have hcb : (c == '(' || c == '[') = false := by
          simp [hc.1, hc.2]
        simp [matchParen0, hcb]
      simp only [sub0F, hm]
      rw [ih rest (fun x hx => h x (List.mem_cons_of_mem _ hx))]

theorem isWS_eq_false_of_digit {c : Char} (h : isDigitC c = true) : isWS c = false := by
  cases hw : isWS c with
  | false => rfl
  | true =>
    exfalso
    simp only [isWS, Bool.or_eq_true, beq_iff_eq] at hw
    rcases hw with ((((hw | hw) | hw) | hw) | hw) | hw <;>
      (subst hw; exact absurd h (by decide))

theorem startsWithL_plus_of_digits {l : List Char} (hd : ∀ c ∈ l, isDigitC c = true) :
    startsWithL ['+'] l = false := by
  cases l with
  | nil => rfl
  | cons c rest =>
    have hcp : ¬ ('+' = c) := by
      intro he
      exact absurd (he ▸ hd c (List.mem_cons_self c rest)) (by decide)
    simp [startsWithL, hcp]

theorem cleanedL_eq_self {l : List Char} (h : ∀ c ∈ l, c ≠ '(' ∧ c ≠ '[') :
    cleanedL l = l := sub0F_eq_self _ _ h

theorem not_bracket_of_digit {c : Char} (h : isDigitC c = true) :
    c ≠ '(' ∧ c ≠ '[' := by
  constructor <;> (rintro rfl; exact absurd h (by decide))

/-- On a bare digit string not beginning with `00`, the preprocessing steps
of `normalize_phone_to_e164` are all the identity. -/
theorem digitsL_of_digits {l : List Char} (hd : ∀ c ∈ l, isDigitC c = true)
    (h00 : startsWithL ['0', '0'] l = false) :
    cleanedL l = l ∧ str1L l = l ∧ hasIntl0L l = false ∧ p2L l = l ∧ digitsL l = l := by
  have hcl : cleanedL l = l := cleanedL_eq_self (fun c hc => not_bracket_of_digit (hd c hc))
  have hst : str1L l = l := by
    unfold str1L
    rw [hcl, stripWS_eq_self (fun c hc => isWS_eq_false_of_digit (hd c hc))]
  have hpl : startsWithL ['+'] l = false := startsWithL_plus_of_digits hd
  have hin : hasIntl0L l = false := by
    unfold hasIntl0L
    rw [hst, h00, hpl]
    rfl
  have hp2 : p2L l = l := by
    unfold p2L
    rw [hst, h00]
    · simpa using hcl
  have hdg : digitsL l = l := by
    unfold digitsL
    rw [hp2, hpl]
    simp only [Bool.false_eq_true, if_false]
    exact List.filter_eq_self.mpr hd
  exact ⟨hcl, hst, hin, hp2, hdg⟩

/-- On a canonical `+`-prefixed digit string, the preprocessing steps of
`normalize_phone_to_e164` keep the string and extract exactly its digits. -/
theorem digitsL_of_plus_digits {d : List Char} (hd : ∀ c ∈ d, isDigitC c = true) :
    cleanedL ('+' :: d) = '+' :: d ∧ str1L ('+' :: d) = '+' :: d ∧
      hasIntl0L ('+' :: d) = true ∧ p2L ('+' :: d) = '+' :: d ∧
      digitsL ('+' :: d) = d := by
  have hmem : ∀ c ∈ '+' :: d, c ≠ '(' ∧ c ≠ '[' := by
    intro c hc
    rcases List.mem_cons.mp hc with rfl | hc
    · exact ⟨by decide, by decide⟩
    · exact not_bracket_of_digit (hd c hc)
  have hcl : cleanedL ('+' :: d) = '+' :: d := cleanedL_eq_self hmem
  have hst : str1L ('+' :: d) = '+' :: d := by
    unfold str1L
    rw [hcl, stripWS_eq_self]
    intro c hc
    rcases List.mem_cons.mp hc with rfl | hc
    · decide
    · exact isWS_eq_false_of_digit (hd c hc)
  have h00 : startsWithL ['0', '0'] ('+' :: d) = false := by
    simp [startsWithL]
  have hpl : startsWithL ['+'] ('+' :: d) = true := by
    simp [startsWithL]
  have hin : hasIntl0L ('+' :: d) = true := by
    unfold hasIntl0L
    rw [hst, h00, hpl]
    rfl
  have hp2 : p2L ('+' :: d) = '+' :: d := by
    unfold p2L
    rw [hst, h00]
    simpa using hcl
  have hdg : digitsL ('+' :: d) = d := by
    unfold digitsL
    rw [hp2, hpl]
    simp only [if_pos rfl, List.drop_one, List.tail_cons]
    exact List.filter_eq_self.mpr hd
  exact ⟨hcl, hst, hin, hp2, hdg⟩

/-! ### Claim C3 -/

/-- C3 (amended): for every input in which `normalize_phone_to_e164` detects
no international marker and whose cleaned digit string (bracketed-zero
markers and non-digits removed) has exactly 10 digits beginning with `0`,
the function returns exactly that cleaned digit string — never `+` or a
guessed country prefix; when the input is already a bare digit string it is
returned verbatim.  (The claim's "returns it unchanged" for arbitrary raw
strings fails: formatting characters are stripped, see the
counterexample.) -/
theorem C3_theorem (s : String)
    (hm : hasIntl0L s.toList = false)
    (hlen : (digitsL s.toList).length = 10)
    (h0 : startsWithL ['0'] (digitsL s.toList) = true) :
    normalize_phone_to_e164 s = some (digitsL s.toList).asString ∧
      ((∀ c ∈ s.toList, isDigitC c = true) → normalize_phone_to_e164 s = some s) := by
  have hne : s.toList ≠ [] := by
    intro h
    rw [h] at hlen
    exact absurd hlen (by decide)
  have hmain : normalizeL s.toList = some (digitsL s.toList) := by
    unfold normalizeL
    rw [if_neg hne, if_neg (by rw [hlen]; omega), if_pos ⟨h0, hlen, hm⟩]
  refine ⟨by unfold normalize_phone_to_e164; rw [hmain]; rfl, fun hd => ?_⟩
  have h00 : startsWithL ['0', '0'] s.toList = false := by
    have hcl : cleanedL s.toList = s.toList :=
      cleanedL_eq_self (fun c hc => not_bracket_of_digit (hd c hc))
    have hst : str1L s.toList = s.toList := by
      unfold str1L
      rw [hcl, stripWS_eq_self (fun c hc => isWS_eq_false_of_digit (hd c hc))]
    have := hm
    unfold hasIntl0L at this
    rw [hst] at this
    exact (Bool.or_eq_false_iff.mp this).1
  have hdg : digitsL s.toList = s.toList := (digitsL_of_digits hd h00).2.2.2.2
  rw [hdg] at hmain
  unfold normalize_phone_to_e164
  rw [hmain]
  rfl

/-- C3, as frozen, is false on formatted raw input: the digits of
`"04 91 54 19 52"` number exactly 10 and begin with `0`, there is no leading
`+` or `00`, yet the function does not return the string unchanged — it
returns the cleaned digit string. -/
theorem C3_counterexample :
    normalize_phone_to_e164 "04 91 54 19 52" = some "0491541952" ∧
      some "0491541952" ≠ some "04 91 54 19 52" := by
  constructor
  · rfl
  · decide

/-- Witness for C3 at the concrete input `"04 91 54 19 52"`. -/
theorem C3_witness :
    hasIntl0L ("04 91 54 19 52".toList) = false ∧
      (digitsL ("04 91 54 19 52".toList)).length = 10 ∧
      startsWithL ['0'] (digitsL ("04 91 54 19 52".toList)) = true ∧
      normalize_phone_to_e164 "04 91 54 19 52" =
        some (digitsL ("04 91 54 19 52".toList)).asString :=
  ⟨by decide, by decide, by decide,
    ( C3_theorem "04 91 54 19 52" (by decide) (by decide) (by decide)).1⟩

/-! ### Length behaviour of the two zero-repair steps -/

theorem repair330_cases (d : List Char) :
    repair330 d = d ∨ (d.length = 12 ∧ (repair330 d).length = 11) := by
  unfold repair330
  split
  · rename_i h
    right
    exact ⟨h.2, by simp [List.length_drop, h.2]⟩
  · exact Or.inl rfl

theorem genericRepair_cases (d : List Char) :
    genericRepair d = d ∨ (d.length = 13 ∧ (genericRepair d).length = 12) ∨
      (d.length = 12 ∧ (genericRepair d).length = 11) := by
  unfold genericRepair
  split
  · rename_i h
    split
    · right; left
      refine ⟨h.1, ?_⟩
      simp [List.length_take, List.length_drop, h.1]
    · exact Or.inl rfl
  · split
    · rename_i h2
      split
      · right; right
        refine ⟨h2.1, ?_⟩
        simp [List.length_take, List.length_drop, h2.1]
      · exact Or.inl rfl
    · exact Or.inl rfl

theorem fullRepair_ge10 {d : List Char} (h : 10 ≤ d.length) :
    10 ≤ (genericRepair (repair330 d)).length := by
  rcases repair330_cases d with h1 | h1
  · rw [h1]
    rcases genericRepair_cases d with h2 | h2 | h2
    · rw [h2]; exact h
    · omega
    · omega
  · rcases genericRepair_cases (repair330 d) with h2 | h2 | h2
    · rw [h2]; omega
    · omega
    · omega

theorem fullRepair_of_nine {d : List Char} (h : d.length = 9) :
    genericRepair (repair330 d) = d := by
  have h330 : repair330 d = d := by
    unfold repair330
    rw [if_neg (fun hx => absurd hx.2 (by omega))]
  rw [h330]
  unfold genericRepair
  rw [if_neg (fun hx => absurd hx.1 (by omega)),
    if_neg (fun hx => absurd hx.1 (by omega))]

/-- Full input/output characterization of `normalizeL` on non-empty input,
in terms of the code's own intermediate values `digits` (`digitsL`) and
`has_international_indicator` (`hasIntlL`). -/
theorem normalizeL_spec (l : List Char) (hne : l ≠ []) :
    (normalizeL l = none ↔
      ((digitsL l).length < 9 ∨ 15 < (digitsL l).length ∨
        (hasIntlL l = true ∧ (digitsL l).length = 9))) ∧
    (hasIntlL l = true → 10 ≤ (digitsL l).length → (digitsL l).length ≤ 15 →
      normalizeL l = some ('+' :: genericRepair (repair330 (digitsL l)))) ∧
    (hasIntlL l = false → 9 ≤ (digitsL l).length → (digitsL l).length ≤ 15 →
      normalizeL l = some (digitsL l)) := by
  refine ⟨⟨?_, ?_⟩, ?_, ?_⟩
  · intro h
    unfold normalizeL at h
    rw [if_neg hne] at h
    by_cases hlen : (digitsL l).length < 9 ∨ 15 < (digitsL l).length
    · rcases hlen with hlen | hlen
      · exact Or.inl hlen
      · exact Or.inr (Or.inl hlen)
    · rw [if_neg hlen] at h
      by_cases hloc : startsWithL ['0'] (digitsL l) = true ∧
          (digitsL l).length = 10 ∧ hasIntl0L l = false
      · rw [if_pos hloc] at h
        exact absurd h (by simp)
      · rw [if_neg hloc] at h
        by_cases hint : hasIntlL l = true
        · rw [if_pos hint] at h
          by_cases hrep : 10 ≤ (genericRepair (repair330 (digitsL l))).length
          · rw [if_pos hrep] at h
            exact absurd h (by simp)
          · have h9 : (digitsL l).length = 9 := by
              by_contra h10
              exact hrep (fullRepair_ge10 (by omega))
            exact Or.inr (Or.inr ⟨hint, h9⟩)
        · rw [if_neg hint] at h
          exact absurd h (by simp)
  · intro h
    unfold normalizeL
    rw [if_neg hne]
    rcases h with hlen | hlen | hlen
    · rw [if_pos (Or.inl hlen)]
    · rw [if_pos (Or.inr hlen)]
    · rw [if_neg (by omega), if_neg (fun hloc => by omega),
        if_pos hlen.1, if_neg (fun hrep => ?_)]
      rw [fullRepair_of_nine hlen.2] at hrep
      omega
  · intro hint h10 h15
    unfold normalizeL
    rw [if_neg hne, if_neg (by omega)]
    have hloc : ¬(startsWithL ['0'] (digitsL l) = true ∧
        (digitsL l).length = 10 ∧ hasIntl0L l = false) := by
      rintro ⟨-, hlen10, hi0⟩
      have : hasIntlL l = hasIntl0L l := by
        unfold hasIntlL
        rw [if_neg (fun hx => by omega)]
      rw [this, hi0] at hint
      exact absurd hint (by simp)
    rw [if_neg hloc, if_pos hint, if_pos (fullRepair_ge10 h10)]
  · intro hint h9 h15
    unfold normalizeL
    rw [if_neg hne, if_neg (by omega)]
    by_cases hloc : startsWithL ['0'] (digitsL l) = true ∧
        (digitsL l).length = 10 ∧ hasIntl0L l = false
    · rw [if_pos hloc]
    · rw [if_neg hloc, if_neg (by rw [hint]; simp)]

/-! ### Claim C8 -/

/-- C8 (amended): for every non-empty input, `normalize_phone_to_e164`
returns `None` exactly when the cleaned digit count is outside `[9,15]` OR
when international intent holds with exactly 9 digits (the code's
`len(digits) >= 10` guard also rejects 9-digit international numbers, see
the counterexample); an in-range input yields `+` followed by the
(extra-zero-repaired) digits when intent holds with at least 10 digits, and
the cleaned digit string as-is when no intent was detected. -/
theorem C8_theorem (s : String) (hne : s.toList ≠ []) :
    (normalize_phone_to_e164 s = none ↔
      ((digitsL s.toList).length < 9 ∨ 15 < (digitsL s.toList).length ∨
        (hasIntlL s.toList = true ∧ (digitsL s.toList).length = 9))) ∧
    (hasIntlL s.toList = true → 10 ≤ (digitsL s.toList).length →
      (digitsL s.toList).length ≤ 15 →
      normalize_phone_to_e164 s =
        some ('+' :: genericRepair (repair330 (digitsL s.toList))).asString) ∧
    (hasIntlL s.toList = false → 9 ≤ (digitsL s.toList).length →
      (digitsL s.toList).length ≤ 15 →
      normalize_phone_to_e164 s = some (digitsL s.toList).asString) := by
  obtain ⟨h1, h2, h3⟩ := normalizeL_spec s.toList hne
  refine ⟨?_, ?_, ?_⟩
  · rw [← h1]
    unfold normalize_phone_to_e164
    exact Option.map_eq_none'
  · intro ha hb hc
    unfold normalize_phone_to_e164
    rw [h2 ha hb hc]
    rfl
  · intro ha hb hc
    unfold normalize_phone_to_e164
    rw [h3 ha hb hc]
    rfl

/-- C8, as frozen, is false: `"+123456789"` has 9 cleaned digits — inside
the claimed acceptance range `[9,15]` — yet the function returns `None`
rather than the cleaned digit string. -/
theorem C8_counterexample :
    9 ≤ (digitsL ("+123456789".toList)).length ∧
      (digitsL ("+123456789".toList)).length ≤ 15 ∧
      normalize_phone_to_e164 "+123456789" = none :=
  ⟨by decide, by decide, by rfl⟩

/-- Witness for C8 at the concrete input `"+33491541952"`. -/
theorem C8_witness :
    (normalize_phone_to_e164 "+33491541952" = none ↔
      ((digitsL ("+33491541952".toList)).length < 9 ∨
        15 < (digitsL ("+33491541952".toList)).length ∨
        (hasIntlL ("+33491541952".toList) = true ∧
          (digitsL ("+33491541952".toList)).length = 9))) ∧
    (hasIntlL ("+33491541952".toList) = true →
      10 ≤ (digitsL ("+33491541952".toList)).length →
      (digitsL ("+33491541952".toList)).length ≤ 15 →
      normalize_phone_to_e164 "+33491541952" =
        some ('+' :: genericRepair (repair330 (digitsL ("+33491541952".toList)))).asString) ∧
    (hasIntlL ("+33491541952".toList) = false →
      9 ≤ (digitsL ("+33491541952".toList)).length →
      (digitsL ("+33491541952".toList)).length ≤ 15 →
      normalize_phone_to_e164 "+33491541952" =
        some (digitsL ("+33491541952".toList)).asString) :=
  C8_theorem "+33491541952" (by decide)

/-! ### Idempotence of the zero-repair steps -/

theorem startsWithL_eq_take (p l : List Char) :
    startsWithL p l = true ↔ l.take p.length = p := by
  induction p generalizing l with
  | nil => simp [startsWithL]
  | cons p ps ih =>
    cases l with
    | nil => simp [startsWithL]
    | cons c cs =>
      simp only [startsWithL, Bool.and_eq_true, beq_iff_eq, List.length_cons,
        List.take_succ_cons, List.cons.injEq, ih]
      exact and_congr_left (fun _ => eq_comm)

theorem repair330_eq_self_of_ne12 {d : List Char} (h : d.length ≠ 12) :
    repair330 d = d := by
  unfold repair330
  rw [if_neg (fun hx => h hx.2)]

theorem repair330_eq_self_of_take3 {z : List Char} (h : z.take 3 ≠ ['3', '3', '0']) :
    repair330 z = z := by
  unfold repair330
  rw [if_neg ?_]
  rintro ⟨hsw, -⟩
  exact h (by simpa using (startsWithL_eq_take _ _).mp hsw)

theorem genericRepair_eq_self_of_len {d : List Char} (h12 : d.length ≠ 12)
    (h13 : d.length ≠ 13) : genericRepair d = d := by
  unfold genericRepair
  rw [if_neg (fun hx => h13 hx.1), if_neg (fun hx => h12 hx.1)]

/-- No key of the dialing-code table is the string `330`. -/
theorem cc_no_330 : ccKeys.contains ("330".toList) = false := by decide

set_option maxRecDepth 40000 in
/-- No 3-digit key of the dialing-code table both ends in `0` and has its
first two digits form another key (checked over the whole table). -/
theorem cc_all_fact :
    ccKeys.all (fun k =>
      !(k.length == 3 && k.get? 2 == some '0' && ccKeys.contains (k.take 2))) = true := by
  decide

theorem cc_no_chain {k : List Char} (hk : ccKeys.contains k = true)
    (h3 : k.length = 3) (h0 : k.get? 2 = some '0') :
    ccKeys.contains (k.take 2) = false := by
  have hmem : k ∈ ccKeys := by
    simpa using hk
  have hthis := List.all_eq_true.mp cc_all_fact k hmem
  simp only [h3, h0, beq_self_eq_true, Bool.true_and, Bool.not_eq_true'] at hthis
  simpa using hthis

/-- The helper for the re-run of `genericRepair` on an already-repaired
12-digit string. -/
theorem genericRepair_eq_self_aux {z : List Char} (hlen : z.length = 12)
    (hcc2 : z.get? 2 = some '0' → ccKeys.contains (z.take 2) = false) :
    genericRepair z = z := by
  unfold genericRepair
  rw [if_neg (fun hx => by omega)]
  by_cases hz2 : z.get? 2 = some '0'
  · rw [if_pos ⟨hlen, hz2⟩, if_neg (by rw [hcc2 hz2]; simp)]
  · rw [if_neg (fun hx => hz2 hx.2)]

/-- Applying the pair of repairs (lines 281-290) twice is the same as
applying it once: a repaired string never matches a repair pattern again. -/
theorem fullRepair_idem (d : List Char) :
    genericRepair (repair330 (genericRepair (repair330 d))) =
      genericRepair (repair330 d) := by
  by_cases h330 : startsWithL ['3', '3', '0'] d = true ∧ d.length = 12
  · have hy : repair330 d = '3' :: '3' :: d.drop 3 := by
      unfold repair330
      rw [if_pos h330]
    have hylen : (repair330 d).length = 11 := by
      rw [hy]
      simp [h330.2]
    have hz : genericRepair (repair330 d) = repair330 d :=
      genericRepair_eq_self_of_len (by omega) (by omega)
    rw [hz, repair330_eq_self_of_ne12 (by omega), hz]
  · have hr : repair330 d = d := by
      unfold repair330
      rw [if_neg h330]
    rw [hr]
    by_cases hb1 : d.length = 13 ∧ d.get? 3 = some '0'
    · by_cases hc1 : ccKeys.contains (d.take 3) = true
      · have hzdef : genericRepair d = d.take 3 ++ d.drop 4 := by
          unfold genericRepair
          rw [if_pos hb1, if_pos hc1]
        have hzlen : (genericRepair d).length = 12 := by
          rw [hzdef]
          simp [List.length_take, List.length_drop, hb1.1]
        have hk3 : (d.take 3).length = 3 := by
          simp [List.length_take, hb1.1]
        have hktake : (genericRepair d).take 3 = d.take 3 := by
          rw [hzdef, List.take_append_eq_append_take]
          simp [hk3, List.take_take]
        have hget2 : (genericRepair d).get? 2 = (d.take 3).get? 2 := by
          rw [hzdef]
          exact List.get?_append (by omega)
        have htake2 : (genericRepair d).take 2 = (d.take 3).take 2 := by
          rw [hzdef, List.take_append_eq_append_take]
          simp [hk3]
        have hne330 : (genericRepair d).take 3 ≠ ['3', '3', '0'] := by
          rw [hktake]
          intro he
          rw [he] at hc1
          exact absurd hc1 (by decide)
        rw [repair330_eq_self_of_take3 hne330]
        refine genericRepair_eq_self_aux hzlen ?_
        intro h0
        rw [htake2]
        exact cc_no_chain hc1 hk3 (by rw [← hget2]; exact h0)
      · have hzd : genericRepair d = d := by
          unfold genericRepair
          rw [if_pos hb1, if_neg hc1]
        rw [hzd, hr]
        exact hzd
    · by_cases hb2 : d.length = 12 ∧ d.get? 2 = some '0'
      · by_cases hc2 : ccKeys.contains (d.take 2) = true
        · have hzdef : genericRepair d = d.take 2 ++ d.drop 3 := by
            unfold genericRepair
            rw [if_neg hb1, if_pos hb2, if_pos hc2]
          have hzlen : (genericRepair d).length = 11 := by
            rw [hzdef]
            simp [List.length_take, List.length_drop, hb2.1]
          rw [repair330_eq_self_of_ne12 (by omega),
            genericRepair_eq_self_of_len (by omega) (by omega)]
        · have hzd : genericRepair d = d := by
            unfold genericRepair
            rw [if_neg hb1, if_pos hb2, if_neg hc2]
          rw [hzd, hr]
          exact hzd
      · have hzd : genericRepair d = d := by
          unfold genericRepair
          rw [if_neg hb1, if_neg hb2]
        rw [hzd, hr]
        exact hzd

theorem repair330_digits {d : List Char} (hd : ∀ c ∈ d, isDigitC c = true) :
    ∀ c ∈ repair330 d, isDigitC c = true := by
  unfold repair330
  split
  · intro c hc
    rcases List.mem_cons.mp hc with rfl | hc
    · decide
    rcases List.mem_cons.mp hc with rfl | hc
    · decide
    · exact hd c (List.drop_subset _ _ hc)
  · exact hd

theorem genericRepair_digits {d : List Char} (hd : ∀ c ∈ d, isDigitC c = true) :
    ∀ c ∈ genericRepair d, isDigitC c = true := by
  unfold genericRepair
  split
  · split
    · intro c hc
      rcases List.mem_append.mp hc with hc | hc
      · exact hd c (List.take_subset _ _ hc)
      · exact hd c (List.drop_subset _ _ hc)
    · exact hd
  · split
    · split
      · intro c hc
        rcases List.mem_append.mp hc with hc | hc
        · exact hd c (List.take_subset _ _ hc)
        · exact hd c (List.drop_subset _ _ hc)
      · exact hd
    · exact hd

theorem fullRepair_le (d : List Char) :
    (genericRepair (repair330 d)).length ≤ d.length := by
  rcases repair330_cases d with h1 | h1
  · rw [h1]
    rcases genericRepair_cases d with h2 | h2 | h2
    · rw [h2]
    · omega
    · omega
  · rcases genericRepair_cases (repair330 d) with h2 | h2 | h2
    · rw [h2]; omega
    · omega
    · omega

/-- Every `some` output of `normalizeL` is either a canonical `+`-prefixed
digit string whose digit part is repair-stable, or a bare digit string of
9-15 digits which, when 11 or more digits long, has no known dialing code
at its front. -/
theorem normalizeL_output {l t : List Char} (h : normalizeL l = some t) :
    (∃ d, t = '+' :: d ∧ (∀ c ∈ d, isDigitC c = true) ∧ 10 ≤ d.length ∧
      d.length ≤ 15 ∧ genericRepair (repair330 d) = d) ∨
    ((∀ c ∈ t, isDigitC c = true) ∧ 9 ≤ t.length ∧ t.length ≤ 15 ∧
      (11 ≤ t.length →
        ccKeys.contains (t.take 3) = false ∧ ccKeys.contains (t.take 2) = false ∧
          ccKeys.contains (t.take 1) = false)) := by
  have hdig : ∀ c ∈ digitsL l, isDigitC c = true := by
    unfold digitsL
    split
    · exact fun c hc => (List.mem_filter.mp hc).2
    · exact fun c hc => (List.mem_filter.mp hc).2
  unfold normalizeL at h
  by_cases hne : l = []
  · rw [if_pos hne] at h
    exact absurd h (by simp)
  rw [if_neg hne] at h
  by_cases hlen : (digitsL l).length < 9 ∨ 15 < (digitsL l).length
  · rw [if_pos hlen] at h
    exact absurd h (by simp)
  rw [if_neg hlen] at h
  push_neg at hlen
  by_cases hloc : startsWithL ['0'] (digitsL l) = true ∧ (digitsL l).length = 10 ∧
      hasIntl0L l = false
  · rw [if_pos hloc] at h
    obtain rfl := Option.some.inj h
    right
    exact ⟨hdig, by omega, by omega, fun h11 => absurd hloc.2.1 (by omega)⟩
  rw [if_neg hloc] at h
  by_cases hint : hasIntlL l = true
  · rw [if_pos hint] at h
    by_cases hrep : 10 ≤ (genericRepair (repair330 (digitsL l))).length
    · rw [if_pos hrep] at h
      obtain rfl := Option.some.inj h
      left
      refine ⟨genericRepair (repair330 (digitsL l)), rfl,
        genericRepair_digits (repair330_digits hdig), hrep, ?_, fullRepair_idem _⟩
      have := fullRepair_le (digitsL l)
      omega
    · rw [if_neg hrep] at h
      exact absurd h (by simp)
  · rw [if_neg hint] at h
    obtain rfl := Option.some.inj h
    right
    refine ⟨hdig, by omega, by omega, ?_⟩
    intro h11
    have hfalse : hasIntlL l = false := by
      cases he : hasIntlL l
      · rfl
      · exact absurd he hint
    unfold hasIntlL at hfalse
    by_cases hi0 : hasIntl0L l = false
    · rw [if_pos ⟨hi0, by omega⟩] at hfalse
      simp only [Bool.or_eq_false_iff] at hfalse
      exact ⟨hfalse.1.1, hfalse.1.2, hfalse.2⟩
    · rw [if_neg (fun hx => hi0 hx.1)] at hfalse
      exact absurd hfalse hi0

/-- A `normalizeL` output not starting with `00` is a fixed point. -/
theorem normalizeL_fixed {t0 : List Char}
    (h00 : startsWithL ['0', '0'] t0 = false)
    (hprop : (∃ d, t0 = '+' :: d ∧ (∀ c ∈ d, isDigitC c = true) ∧ 10 ≤ d.length ∧
        d.length ≤ 15 ∧ genericRepair (repair330 d) = d) ∨
      ((∀ c ∈ t0, isDigitC c = true) ∧ 9 ≤ t0.length ∧ t0.length ≤ 15 ∧
        (11 ≤ t0.length →
          ccKeys.contains (t0.take 3) = false ∧ ccKeys.contains (t0.take 2) = false ∧
            ccKeys.contains (t0.take 1) = false))) :
    normalizeL t0 = some t0 := by
  rcases hprop with ⟨d, rfl, hd, h10, h15, hstable⟩ | ⟨hd, h9, h15, hkeys⟩
  · obtain ⟨-, -, hin, -, hdg⟩ := digitsL_of_plus_digits hd
    have hIL : hasIntlL ('+' :: d) = true := by
      unfold hasIntlL
      rw [if_neg (fun hx => absurd (hin.symm.trans hx.1) (by simp))]
      exact hin
    unfold normalizeL
    rw [if_neg (by simp), hdg, if_neg (by omega),
      if_neg (fun hx => absurd (hin.symm.trans hx.2.2) (by simp)),
      if_pos hIL, hstable, if_pos h10]
  · obtain ⟨-, -, hin, -, hdg⟩ := digitsL_of_digits hd h00
    have hIL : hasIntlL t0 = false := by
      unfold hasIntlL
      by_cases h11 : 11 ≤ (digitsL t0).length
      · rw [if_pos ⟨hin, h11⟩]
        rw [hdg] at h11
        obtain ⟨k3, k2, k1⟩ := hkeys h11
        rw [hdg, k3, k2, k1]
        rfl
      · rw [if_neg (fun hx => h11 hx.2)]
        exact hin
    have hne : t0 ≠ [] := by
      intro he
      rw [he] at h9
      simp at h9
    unfold normalizeL
    rw [if_neg hne, hdg, if_neg (by omega)]
    by_cases hloc : startsWithL ['0'] t0 = true ∧ t0.length = 10 ∧ hasIntl0L t0 = false
    · rw [if_pos hloc]
    · rw [if_neg hloc, if_neg (by rw [hIL]; simp)]

/-! ### Claim C4 -/

/-- C4 (amended): phone normalization is idempotent on every value in its
non-`None` range that does not begin with `00`: if
`normalize_phone_to_e164 s = some t` and `t` has no `00` prefix, then
normalizing `t` returns `t` unchanged; in particular every canonical
`+`-prefixed output is a fixed point.  (A bare-digit output beginning with
`00` is re-read as an international prefix on the second pass and is not a
fixed point — see the counterexample.) -/
theorem C4_theorem (s t : String) (h : normalize_phone_to_e164 s = some t)
    (h00 : startsWithL ['0', '0'] t.toList = false) :
    normalize_phone_to_e164 t = some t := by
  obtain ⟨t0, hl, ht⟩ := Option.map_eq_some'.mp h
  have htl : t.toList = t0 := by
    rw [← ht, List.toList_asString]
  rw [htl] at h00
  have key : normalizeL t0 = some t0 := normalizeL_fixed h00 (normalizeL_output hl)
  unfold normalize_phone_to_e164
  rw [htl, key, Option.map_some', ht]

/-- C4, as frozen, is false: `"0 012345678"` normalizes to the bare digit
string `"0012345678"` (a value in the range of the normalizer), but
normalizing that value again yields `None`, not the value itself — the
second pass reads its `00` prefix as an international marker and the
remaining 8 digits are rejected as too short. -/
theorem C4_counterexample :
    normalize_phone_to_e164 "0 012345678" = some "0012345678" ∧
      normalize_phone_to_e164 "0012345678" = none :=
  ⟨by rfl, by rfl⟩

/-- Witness for C4 at the already-canonical E.164 output `"+33491541952"`. -/
theorem C4_witness :
    normalize_phone_to_e164 "+33491541952" = some "+33491541952" ∧
      startsWithL ['0', '0'] ("+33491541952" : String).toList = false ∧
      normalize_phone_to_e164 "+33491541952" = some "+33491541952" :=
  ⟨by rfl, by decide, C4_theorem "+33491541952" "+33491541952" (by rfl) (by decide)⟩

/-! ### Claim C10 -/

theorem normStep_ne_empty {acc : List String} (h : ∀ p ∈ acc, p ≠ "")
    (q : String) : ∀ p ∈ normStep acc q, p ≠ "" := by
  unfold normStep
  split
  · rename_i n heq
    split
    · rename_i hne
      intro p hp
      rcases List.mem_append.mp hp with hp | hp
      · exact h p hp
      · rw [List.mem_singleton.mp hp]
        exact hne
    · exact h
  · exact h

theorem foldl_normStep_ne_empty (l : List String) :
    ∀ acc, (∀ p ∈ acc, p ≠ "") → ∀ p ∈ l.foldl normStep acc, p ≠ "" := by
  induction l with
  | nil => exact fun acc h => h
  | cons q rest ih =>
    intro acc h
    rw [List.foldl_cons]
    exact ih (normStep acc q) (normStep_ne_empty h q)

theorem dedupGo_spec (l : List String) :
    ∀ seen acc, ∃ t, dedupGo l seen acc = acc ++ t ∧
      (∀ p ∈ t, p ∈ l) ∧ (t.map coreOf).Nodup ∧ (∀ c ∈ t.map coreOf, c ∉ seen) := by
  induction l with
  | nil =>
    intro seen acc
    exact ⟨[], by simp [dedupGo], by simp, by simp, by simp⟩
  | cons p rest ih =>
    intro seen acc
    by_cases hseen : coreOf p ∈ seen
    · obtain ⟨t, ht, hmem, hnd, hsn⟩ := ih seen acc
      refine ⟨t, ?_, fun q hq => List.mem_cons_of_mem _ (hmem q hq), hnd, hsn⟩
      rw [dedupGo, if_pos hseen]
      exact ht
    · obtain ⟨t, ht, hmem, hnd, hsn⟩ := ih (coreOf p :: seen) (acc ++ [p])
      refine ⟨p :: t, ?_, ?_, ?_, ?_⟩
      · rw [dedupGo, if_neg hseen, ht, List.append_assoc]
        rfl
      · intro q hq
        rcases List.mem_cons.mp hq with rfl | hq
        · exact List.mem_cons_self _ _
        · exact List.mem_cons_of_mem _ (hmem q hq)
      · rw [List.map_cons]
        refine List.Nodup.cons ?_ hnd
        intro hc
        exact (hsn _ hc) (List.mem_cons_self _ _)
      · intro c hc
        rw [List.map_cons] at hc
        rcases List.mem_cons.mp hc with rfl | hc2
        · exact hseen
        · exact fun hs => (hsn c hc2) (List.mem_cons_of_mem _ hs)

theorem safetyGo_id (l : List String) :
    ∀ seen acc, (∀ p ∈ l, p ≠ "") → (l.map coreOf).Nodup →
      (∀ c ∈ l.map coreOf, c ∉ seen) → safetyGo l seen acc = acc ++ l := by
  induction l with
  | nil =>
    intro seen acc _ _ _
    simp [safetyGo]
  | cons p rest ih =>
    intro seen acc hne hnd hsn
    rw [safetyGo, if_pos (hne p (List.mem_cons_self _ _)),
      if_neg (hsn (coreOf p) (by simp)),
      ih (coreOf p :: seen) (acc ++ [p])
        (fun q hq => hne q (List.mem_cons_of_mem _ hq))
        (by simpa using (List.nodup_cons.mp (by simpa using hnd)).2) ?_,
      List.append_assoc]
    · rfl
    · intro c hc hmem
      rcases List.mem_cons.mp hmem with rfl | hs
      · exact (List.nodup_cons.mp (by simpa using hnd)).1 hc
      · exact hsn c (by simp [hc]) hs

/-- C10: the inline "final safety check" dedup pass of `process_spreadsheet`
is the identity on the output of `deduplicate_phones`: that output contains
no empty entries and its elements have pairwise-distinct last-9-digit cores,
so the second pass keeps every element.  Composing the two equals
`deduplicate_phones` alone. -/
theorem C10_theorem (l : List String) :
    finalSafetyCheck (deduplicate_phones l) = deduplicate_phones l := by
  unfold deduplicate_phones
  by_cases hl : l = []
  · rw [if_pos hl]
    rfl
  · rw [if_neg hl]
    obtain ⟨t, ht, hmem, hnd, -⟩ := dedupGo_spec (l.foldl normStep []) [] []
    rw [ht, List.nil_append]
    unfold finalSafetyCheck
    rw [safetyGo_id t [] []
      (fun p hp => foldl_normStep_ne_empty l [] (by simp) p (hmem p hp))
      hnd (by simp), List.nil_append]

/-! ### Claims C5 and C9 -/

theorem insertUniq_ne_nil (a : List String) (x : String) : insertUniq a x ≠ [] := by
  unfold insertUniq
  split
  · rename_i hc
    exact List.ne_nil_of_mem (by simpa using hc)
  · simp

theorem foldl_insertUniq_ne_nil (l : List String) :
    ∀ acc : List String, acc ≠ [] → l.foldl insertUniq acc ≠ [] := by
  induction l with
  | nil => exact fun acc h => h
  | cons y ys ih =>
    intro acc _
    rw [List.foldl_cons]
    exact ih _ (insertUniq_ne_nil acc y)

theorem unionL_ne_nil (a : List String) {b : List String} (h : b ≠ []) :
    unionL a b ≠ [] := by
  cases b with
  | nil => exact absurd rfl h
  | cons x xs =>
    unfold unionL
    rw [List.foldl_cons]
    exact foldl_insertUniq_ne_nil xs _ (insertUniq_ne_nil a x)

theorem scrapeInv_success {es ps : List String} {ws : String} {tr : List String}
    (h : es ≠ [] ∨ ps ≠ []) : scrapeInv ⟨es, ps, ws, "Success", tr⟩ := by
  unfold scrapeInv
  refine ⟨fun _ => h, fun _ => Or.inl rfl, fun hc => ?_, fun hc => ?_⟩
  · rcases hc with hc | hc | hc | hc
    · exact absurd (show "Success" = "Timeout" from hc) (by decide)
    · exact absurd (show "Success" = "Connection Failed" from hc) (by decide)
    · exact absurd (show "Success" = "Does Not Exist" from hc) (by decide)
    · exact absurd (show "Success" = "No Contacts Found" from hc) (by decide)
  · exact absurd (show "Success" = "Error" from hc) (by decide)

theorem scrapeInv_noContacts {ws : String} {tr : List String} :
    scrapeInv ⟨[], [], ws, "No Contacts Found", tr⟩ := by
  unfold scrapeInv
  refine ⟨fun hc => absurd (show "No Contacts Found" = "Success" from hc) (by decide),
    fun hor => ?_, fun _ => ⟨rfl, rfl⟩,
    fun hc => absurd (show "No Contacts Found" = "Error" from hc) (by decide)⟩
  rcases hor with h | h <;> exact absurd rfl h

/-- The invariant at the raising-discovery `Error` return, which is only
reachable with the early-stop condition false. -/
theorem scrapeInv_discoveryError {es ps : List String} {tr : List String}
    (h : ¬(es ≠ [] ∧ ps ≠ [])) :
    scrapeInv ⟨es, ps, "Unavailable", "Error", tr⟩ := by
  unfold scrapeInv
  refine ⟨fun hc => absurd (show "Error" = "Success" from hc) (by decide),
    fun _ => Or.inr rfl, fun hc => ?_, fun _ => h⟩
  rcases hc with hc | hc | hc | hc
  · exact absurd (show "Error" = "Timeout" from hc) (by decide)
  · exact absurd (show "Error" = "Connection Failed" from hc) (by decide)
  · exact absurd (show "Error" = "Does Not Exist" from hc) (by decide)
  · exact absurd (show "Error" = "No Contacts Found" from hc) (by decide)

/-- The invariant at any non-`Success` row with empty lists. -/
theorem scrapeInv_emptyRow {ws sr : String} {tr : List String}
    (h1 : ¬ sr = "Success") : scrapeInv ⟨[], [], ws, sr, tr⟩ := by
  unfold scrapeInv
  refine ⟨fun hc => absurd hc h1, fun hor => ?_, fun _ => ⟨rfl, rfl⟩,
    fun _ hand => hand.1 rfl⟩
  rcases hor with h | h <;> exact absurd rfl h

theorem classifyFailure_inv (f : FetchOutcome) (tr : List String) :
    scrapeInv (classifyFailure f tr) := by
  cases f with
  | ok page => exact scrapeInv_emptyRow (by decide)
  | timeout => exact scrapeInv_emptyRow (by decide)
  | connectionFailed => exact scrapeInv_emptyRow (by decide)
  | httpError => exact scrapeInv_emptyRow (by decide)
  | otherError => exact scrapeInv_emptyRow (by decide)

theorem exploreLinks_inv (fetch : String → FetchOutcome)
    (es ps homeTrace links : List String) :
    scrapeInv (exploreLinks fetch es ps homeTrace links) := by
  unfold exploreLinks
  by_cases h2 : (contactLoop fetch links es ps).1 ≠ [] ∨
      (contactLoop fetch links es ps).2.1 ≠ []
  · rw [if_pos h2]
    exact scrapeInv_success h2
  · rw [if_neg h2]
    push_neg at h2
    rw [h2.1, h2.2]
    exact scrapeInv_noContacts

theorem afterHomepage_inv (fetch : String → FetchOutcome) (page : Page)
    (tr : List String) : scrapeInv (afterHomepage fetch page tr) := by
  by_cases h1 : unionL [] page.emails ≠ [] ∧ unionL [] page.phones ≠ []
  · have hstep : afterHomepage fetch page tr =
        ⟨unionL [] page.emails, unionL [] page.phones, "OK", "Success", tr⟩ := by
      unfold afterHomepage
      rw [if_pos h1]
    rw [hstep]
    exact scrapeInv_success (Or.inl h1.1)
  · cases hcl : page.contactLinks with
    | none =>
      have hstep : afterHomepage fetch page tr =
          ⟨unionL [] page.emails, unionL [] page.phones, "Unavailable", "Error",
            tr⟩ := by
        unfold afterHomepage
        rw [if_neg h1, hcl]
      rw [hstep]
      exact scrapeInv_discoveryError h1
    | some links =>
      have hstep : afterHomepage fetch page tr =
          exploreLinks fetch (unionL [] page.emails) (unionL [] page.phones)
            tr links := by
        unfold afterHomepage
        rw [if_neg h1, hcl]
      rw [hstep]
      exact exploreLinks_inv fetch _ _ tr links

theorem scrape_fallback_inv (fetch : String → FetchOutcome) (url : String)
    (f1 : FetchOutcome) :
    scrapeInv (if startsWithL ("https://".toList) (normalize_url url).toList = true then
        (match fetch (httpFallback url) with
          | FetchOutcome.ok page =>
            afterHomepage fetch page [normalize_url url, httpFallback url]
          | f2 => classifyFailure f2 [normalize_url url, httpFallback url])
      else classifyFailure f1 [normalize_url url]) := by
  by_cases hs : startsWithL ("https://".toList) (normalize_url url).toList = true
  · rw [if_pos hs]
    cases fetch (httpFallback url) with
    | ok page => exact afterHomepage_inv fetch page _
    | timeout => exact classifyFailure_inv .timeout _
    | connectionFailed => exact classifyFailure_inv .connectionFailed _
    | httpError => exact classifyFailure_inv .httpError _
    | otherError => exact classifyFailure_inv .otherError _
  · rw [if_neg hs]
    exact classifyFailure_inv f1 _

/-- C5 (amended): for every fetch oracle and URL, a `Success` row carries at
least one email or phone; a row carrying a contact is classified `Success`
or `Error`; every `Timeout`, `Connection Failed`, `Does Not Exist` and
`No Contacts Found` row carries no contact; and an `Error` row never carries
both kinds.  The claimed iff fails only in one direction: a raising
`find_contact_page_links` call after homepage extraction reaches the generic
handler, which returns the current, possibly non-empty, accumulators with
result `Error` — see the counterexample. -/
theorem C5_theorem (fetch : String → FetchOutcome) (url : String) :
    ((scrape_website fetch url).scrapingResult = "Success" →
      ((scrape_website fetch url).emails ≠ [] ∨
        (scrape_website fetch url).phones ≠ [])) ∧
    (((scrape_website fetch url).emails ≠ [] ∨
        (scrape_website fetch url).phones ≠ []) →
      (scrape_website fetch url).scrapingResult = "Success" ∨
        (scrape_website fetch url).scrapingResult = "Error") ∧
    (((scrape_website fetch url).scrapingResult = "Timeout" ∨
        (scrape_website fetch url).scrapingResult = "Connection Failed" ∨
        (scrape_website fetch url).scrapingResult = "Does Not Exist" ∨
        (scrape_website fetch url).scrapingResult = "No Contacts Found") →
      (scrape_website fetch url).emails = [] ∧
        (scrape_website fetch url).phones = []) ∧
    ((scrape_website fetch url).scrapingResult = "Error" →
      ¬((scrape_website fetch url).emails ≠ [] ∧
        (scrape_website fetch url).phones ≠ [])) := by
  have hInv : scrapeInv (scrape_website fetch url) := by
    cases hf : fetch (normalize_url url) with
    | ok page =>
      have hstep : scrape_website fetch url =
          afterHomepage fetch page [normalize_url url] := by
        unfold scrape_website
        rw [hf]
      rw [hstep]
      exact afterHomepage_inv fetch page _
    | timeout =>
      have hstep : scrape_website fetch url =
          (if startsWithL ("https://".toList) (normalize_url url).toList = true then
            (match fetch (httpFallback url) with
              | FetchOutcome.ok page =>
                afterHomepage fetch page [normalize_url url, httpFallback url]
              | f2 => classifyFailure f2 [normalize_url url, httpFallback url])
          else classifyFailure .timeout [normalize_url url]) := by
        unfold scrape_website
        rw [hf]
      rw [hstep]
      exact scrape_fallback_inv fetch url .timeout
    | connectionFailed =>
      have hstep : scrape_website fetch url =
          (if startsWithL ("https://".toList) (normalize_url url).toList = true then
            (match fetch (httpFallback url) with
              | FetchOutcome.ok page =>
                afterHomepage fetch page [normalize_url url, httpFallback url]
              | f2 => classifyFailure f2 [normalize_url url, httpFallback url])
          else classifyFailure .connectionFailed [normalize_url url]) := by
        unfold scrape_website
        rw [hf]
      rw [hstep]
      exact scrape_fallback_inv fetch url .connectionFailed
    | httpError =>
      have hstep : scrape_website fetch url =
          (if startsWithL ("https://".toList) (normalize_url url).toList = true then
            (match fetch (httpFallback url) with
              | FetchOutcome.ok page =>
                afterHomepage fetch page [normalize_url url, httpFallback url]
              | f2 => classifyFailure f2 [normalize_url url, httpFallback url])
          else classifyFailure .httpError [normalize_url url]) := by
        unfold scrape_website
        rw [hf]
      rw [hstep]
      exact scrape_fallback_inv fetch url .httpError
    | otherError =>
      have hstep : scrape_website fetch url =
          (if startsWithL ("https://".toList) (normalize_url url).toList = true then
            (match fetch (httpFallback url) with
              | FetchOutcome.ok page =>
                afterHomepage fetch page [normalize_url url, httpFallback url]
              | f2 => classifyFailure f2 [normalize_url url, httpFallback url])
          else classifyFailure .otherError [normalize_url url]) := by
        unfold scrape_website
        rw [hf]
      rw [hstep]
      exact scrape_fallback_inv fetch url .otherError
  exact hInv

/-- C5, as frozen, is false: on a homepage that yields one email and no
phone and whose `find_contact_page_links` call raises (a keyword-matching
href such as `http://[contact` makes `urljoin`/`urlparse` throw
`ValueError: Invalid IPv6 URL` at line 399, outside every inner `try`), the
generic handler of lines 507-509 returns the non-empty email list with
result `Error` — a non-`Success` row carrying an extracted email. -/
theorem C5_counterexample :
    (scrape_website fetchDiscoveryError "example.com").scrapingResult = "Error" ∧
      (scrape_website fetchDiscoveryError "example.com").emails =
        ["info@example.com"] ∧
      ¬((scrape_website fetchDiscoveryError "example.com").scrapingResult =
          "Success" ↔
        ((scrape_website fetchDiscoveryError "example.com").emails ≠ [] ∨
          (scrape_website fetchDiscoveryError "example.com").phones ≠ [])) :=
  ⟨by rfl, by rfl, by decide⟩

/-- Witness for C5 at a concrete oracle and URL. -/
theorem C5_witness :
    ((scrape_website fetchAlwaysOk "example.com").scrapingResult = "Success" →
      ((scrape_website fetchAlwaysOk "example.com").emails ≠ [] ∨
        (scrape_website fetchAlwaysOk "example.com").phones ≠ [])) ∧
    (((scrape_website fetchAlwaysOk "example.com").emails ≠ [] ∨
        (scrape_website fetchAlwaysOk "example.com").phones ≠ []) →
      (scrape_website fetchAlwaysOk "example.com").scrapingResult = "Success" ∨
        (scrape_website fetchAlwaysOk "example.com").scrapingResult = "Error") ∧
    (((scrape_website fetchAlwaysOk "example.com").scrapingResult = "Timeout" ∨
        (scrape_website fetchAlwaysOk "example.com").scrapingResult =
          "Connection Failed" ∨
        (scrape_website fetchAlwaysOk "example.com").scrapingResult =
          "Does Not Exist" ∨
        (scrape_website fetchAlwaysOk "example.com").scrapingResult =
          "No Contacts Found") →
      (scrape_website fetchAlwaysOk "example.com").emails = [] ∧
        (scrape_website fetchAlwaysOk "example.com").phones = []) ∧
    ((scrape_website fetchAlwaysOk "example.com").scrapingResult = "Error" →
      ¬((scrape_website fetchAlwaysOk "example.com").emails ≠ [] ∧
        (scrape_website fetchAlwaysOk "example.com").phones ≠ [])) :=
  C5_theorem fetchAlwaysOk "example.com"

theorem contactLoop_stop (fetch : String → FetchOutcome) :
    ∀ (links es ps : List String), es ≠ [] → ps ≠ [] →
      contactLoop fetch links es ps = (es, ps, []) := by
  intro links es ps hes hps
  cases links with
  | nil => rfl
  | cons l ls =>
    unfold contactLoop
    rw [if_pos ⟨hes, hps⟩]

/-- C9: once both at least one email and at least one phone have been
recorded for a site no further page fetch occurs: if the homepage already
yields both, the whole fetch trace is just the homepage request and the
outcome is `Success`; and the contact-page loop, re-checking before every
candidate, fetches nothing whenever both sets are already non-empty. -/
theorem C9_theorem (fetch : String → FetchOutcome) (url : String) (page : Page)
    (hf : fetch (normalize_url url) = FetchOutcome.ok page)
    (he : page.emails ≠ []) (hp : page.phones ≠ []) :
    (scrape_website fetch url).fetched = [normalize_url url] ∧
      (scrape_website fetch url).scrapingResult = "Success" ∧
      (∀ (links es ps : List String), es ≠ [] → ps ≠ [] →
        contactLoop fetch links es ps = (es, ps, [])) := by
  have hstep : scrape_website fetch url = afterHomepage fetch page [normalize_url url] := by
    unfold scrape_website
    rw [hf]
  have hres : afterHomepage fetch page [normalize_url url] =
      ⟨unionL [] page.emails, unionL [] page.phones, "OK", "Success",
        [normalize_url url]⟩ := by
    unfold afterHomepage
    rw [if_pos ⟨unionL_ne_nil [] he, unionL_ne_nil [] hp⟩]
  rw [hstep, hres]
  exact ⟨rfl, rfl, contactLoop_stop fetch⟩

/-- Witness for C9 at a concrete oracle whose homepage yields both kinds of
contact. -/
theorem C9_witness :
    (scrape_website fetchAlwaysOk "example.com").fetched =
        [normalize_url "example.com"] ∧
      (scrape_website fetchAlwaysOk "example.com").scrapingResult = "Success" ∧
      (∀ (links es ps : List String), es ≠ [] → ps ≠ [] →
        contactLoop fetchAlwaysOk links es ps = (es, ps, [])) :=
  C9_theorem fetchAlwaysOk "example.com" pageBoth (by rfl) (by decide) (by decide)

/-! ### sortedDedup: membership, ordering, no duplicates -/

theorem mem_insData {m n : Nat} : ∀ l : List Nat, (m ∈ insData n l ↔ m = n ∨ m ∈ l) := by
  intro l
  induction l with
  | nil => simp [insData]
  | cons k rest ih =>
    unfold insData
    by_cases h1 : n < k
    · rw [if_pos h1]
      simp [List.mem_cons]
    · rw [if_neg h1]
      by_cases h2 : n = k
      · rw [if_pos h2]
        subst h2
        simp [List.mem_cons]
      · rw [if_neg h2]
        simp [List.mem_cons, ih]
        tauto

theorem pairwise_insData {n : Nat} : ∀ {l : List Nat}, l.Pairwise (· < ·) →
    (insData n l).Pairwise (· < ·) := by
  intro l
  induction l with
  | nil =>
    intro _
    simp [insData]
  | cons k rest ih =>
    intro hp
    unfold insData
    by_cases h1 : n < k
    · rw [if_pos h1]
      refine List.Pairwise.cons ?_ hp
      intro m hm
      rcases List.mem_cons.mp hm with rfl | hm
      · exact h1
      · exact lt_trans h1 (List.rel_of_pairwise_cons hp hm)
    · rw [if_neg h1]
      by_cases h2 : n = k
      · rw [if_pos h2]
        exact hp
      · rw [if_neg h2]
        obtain ⟨hk, hrest⟩ := List.pairwise_cons.mp hp
        refine List.pairwise_cons.mpr ⟨?_, ih hrest⟩
        intro m hm
        rcases (mem_insData rest).mp hm with rfl | hm
        · omega
        · exact hk m hm

theorem mem_sortedDedup {m : Nat} : ∀ l : List Nat, (m ∈ sortedDedup l ↔ m ∈ l) := by
  intro l
  induction l with
  | nil => simp [sortedDedup]
  | cons k rest ih =>
    unfold sortedDedup at ih ⊢
    rw [List.foldr_cons]
    rw [mem_insData]
    simp [List.mem_cons, ih]

theorem pairwise_sortedDedup (l : List Nat) : (sortedDedup l).Pairwise (· < ·) := by
  unfold sortedDedup
  induction l with
  | nil => simp
  | cons k rest ih =>
    rw [List.foldr_cons]
    exact pairwise_insData ih

theorem nodup_sortedDedup (l : List Nat) : (sortedDedup l).Nodup :=
  (pairwise_sortedDedup l).imp (fun h => Nat.ne_of_lt h)

/-! ### The selection loop -/

theorem selectGo_eq_take (cond : Nat → Bool) (num : Nat) :
    ∀ (l : List Nat) (acc : List Nat), acc.length < num →
      selectGo cond num l acc = acc ++ (l.filter cond).take (num - acc.length) := by
  intro l
  induction l with
  | nil =>
    intro acc _
    simp [selectGo]
  | cons i rest ih =>
    intro acc hacc
    unfold selectGo
    by_cases hc : cond i = true
    · rw [if_pos hc, List.filter_cons_of_pos hc]
      by_cases hdone : num ≤ acc.length + 1
      · rw [if_pos hdone]
        have hone : num - acc.length = 1 := by omega
        rw [hone]
        simp
      · rw [if_neg hdone, ih (acc ++ [i]) (by simp; omega)]
        have hsub : num - acc.length = (num - (acc ++ [i]).length) + 1 := by
          simp
          omega
        rw [hsub, List.take_succ_cons, List.append_assoc]
        rfl
    · rw [if_neg hc, List.filter_cons_of_neg hc, ih acc hacc]

theorem chunkCond_eq {completed : List Nat} {d : Dir}
    (hcov : ∀ i, is_chunk_completed d i = true → completed.contains i = true) :
    ∀ i, chunkCond completed d i = !(is_chunk_completed d i) := by
  intro i
  unfold chunkCond
  cases hv : is_chunk_completed d i with
  | true =>
    rw [hcov i hv]
    rfl
  | false => simp

/-! ### Claim C2 -/

/-- C2 (amended): the selection loop scans chunk IDs `1..total` in ascending
order and selects the first N satisfying `i ∉ completed_chunks OR artifact
not verified-complete` — it depends on the persisted completed set as well
as on the artifact predicate.  Whenever the completed set covers every
verified-complete chunk the selection coincides with the spec's
artifact-only rule, and in the 3-chunk scenario with chunks 1 and 2 not
verified-complete, processing "2 chunks" selects `[1, 2]` in order
regardless of the persisted completed set. -/
theorem C2_theorem :
    (∀ (num total : Nat) (completed : List Nat) (d : Dir), 1 ≤ num →
      (∀ i, is_chunk_completed d i = true → completed.contains i = true) →
      selectChunks num total completed d = specSelection num total d) ∧
    (∀ (completed : List Nat) (d : Dir),
      is_chunk_completed d 1 = false → is_chunk_completed d 2 = false →
      selectChunks 2 3 completed d = [1, 2]) := by
  constructor
  · intro num total completed d hnum hcov
    unfold selectChunks specSelection
    rw [selectGo_eq_take (chunkCond completed d) num (List.range' 1 total) []
      (by simpa using hnum)]
    simp only [List.nil_append, List.length_nil, Nat.sub_zero]
    congr 1
    exact List.filter_congr (fun i _ => chunkCond_eq hcov i)
  · intro completed d h1 h2
    unfold selectChunks
    have hr : List.range' 1 3 = [1, 2, 3] := rfl
    rw [hr]
    have hc1 : chunkCond completed d 1 = true := by
      unfold chunkCond
      rw [h1]
      simp
    have hc2 : chunkCond completed d 2 = true := by
      unfold chunkCond
      rw [h2]
      simp
    unfold selectGo
    rw [if_pos hc1, if_neg (by decide)]
    unfold selectGo
    rw [if_pos hc2, if_pos (by decide)]
    rfl

/-- C2, as frozen, is false: with an empty persisted completed set but a
verified-complete artifact already on disk for chunk 1, the code selects
chunks 1 and 2 (chunk 1 fails the `i not in completed_chunks` half of the
condition), while the spec's artifact-only rule would select chunks 2
and 3. -/
theorem C2_counterexample :
    selectChunks 2 3 [] dirOne = [1, 2] ∧ specSelection 2 3 dirOne = [2, 3] ∧
      ([1, 2] : List Nat) ≠ [2, 3] :=
  ⟨by rfl, by rfl, by decide⟩

/-- Witness for C2: the covered case coincides with the spec rule, and the
scenario case at a concrete stale completed set. -/
theorem C2_witness :
    selectChunks 2 3 ([] : List Nat) ([] : Dir) = specSelection 2 3 ([] : Dir) ∧
      selectChunks 2 3 [5] ([] : Dir) = [1, 2] :=
  ⟨C2_theorem.1 2 3 [] [] (by decide)
      (fun i h => by simp [is_chunk_completed, lookupArt] at h),
    C2_theorem.2 [5] [] (by rfl) (by rfl)⟩

/-! ### Claim C6 -/

/-- C6: `load_progress` deduplicates the persisted completed-chunk list,
re-verifies every member against its result artifact dropping every member
whose artifact is missing, unparseable or empty, and recomputes the
aggregate stats from the artifacts whenever a member was dropped;
consequently a completed-chunk ID with a missing or empty artifact is never
retained across a reload. -/
theorem C6_theorem (p : Progress) (d : Dir) :
    (load_progress (some p) d).completed_chunks =
      (sortedDedup p.completed_chunks).filter (fun n => is_chunk_completed d n) ∧
    (∀ n ∈ (load_progress (some p) d).completed_chunks,
      is_chunk_completed d n = true) ∧
    (((sortedDedup p.completed_chunks).filter
        (fun n => is_chunk_completed d n)).length ≠
        (sortedDedup p.completed_chunks).length →
      (load_progress (some p) d).stats = calculate_stats_from_results d) := by
  simp only [load_progress]
  by_cases hlen : ((sortedDedup p.completed_chunks).filter
      (fun n => is_chunk_completed d n)).length ≠ (sortedDedup p.completed_chunks).length
  · rw [if_pos hlen]
    refine ⟨rfl, ?_, fun _ => rfl⟩
    intro n hn
    exact (List.mem_filter.mp hn).2
  · rw [if_neg hlen]
    push_neg at hlen
    have heq : (sortedDedup p.completed_chunks).filter
        (fun n => is_chunk_completed d n) = sortedDedup p.completed_chunks :=
      List.filter_eq_self.mpr (List.filter_length_eq_length.mp hlen)
    exact ⟨heq.symm, fun n hn => List.filter_length_eq_length.mp hlen n hn,
      fun hne => absurd hlen hne⟩

/-- Witness for C6: a persisted list with a duplicate and a stale member is
deduplicated and healed against a one-artifact directory. -/
theorem C6_witness :
    (load_progress (some progressDup) dirOne).completed_chunks =
      (sortedDedup progressDup.completed_chunks).filter
        (fun n => is_chunk_completed dirOne n) ∧
    (∀ n ∈ (load_progress (some progressDup) dirOne).completed_chunks,
      is_chunk_completed dirOne n = true) ∧
    (((sortedDedup progressDup.completed_chunks).filter
        (fun n => is_chunk_completed dirOne n)).length ≠
        (sortedDedup progressDup.completed_chunks).length →
      (load_progress (some progressDup) dirOne).stats =
        calculate_stats_from_results dirOne) :=
  C6_theorem progressDup dirOne

/-! ### Claim C1 -/

theorem process_loop_inv (runner : Nat → Dir → Option Dir)
    (hrun1 : ∀ n din dout, runner n din = some dout →
      is_chunk_completed dout n = true)
    (hrun2 : ∀ n din dout m, runner n din = some dout → m ≠ n →
      is_chunk_completed din m = true → is_chunk_completed dout m = true) :
    ∀ (lst : List Nat) (p : Progress) (d : Dir),
      p.completed_chunks.Nodup →
      (∀ m ∈ p.completed_chunks, is_chunk_completed d m = true) →
      ((lst.foldl (runStep runner) (p, d)).1.completed_chunks.Nodup ∧
        ∀ m ∈ (lst.foldl (runStep runner) (p, d)).1.completed_chunks,
          is_chunk_completed (lst.foldl (runStep runner) (p, d)).2 m = true) := by
  intro lst
  induction lst with
  | nil =>
    intro p d hnd hinv
    exact ⟨hnd, hinv⟩
  | cons c rest ih =>
    intro p d hnd hinv
    rw [List.foldl_cons]
    cases hr : runner c d with
    | none =>
      have hstep : runStep runner (p, d) c = (p, d) := by
        simp only [runStep]
        rw [hr]
      rw [hstep]
      exact ih p d hnd hinv
    | some d2 =>
      have hstep : runStep runner (p, d) c =
          ({ p with
              completed_chunks := sortedDedup (p.completed_chunks ++ [c])
              stats := calculate_stats_from_results d2 }, d2) := by
        simp only [runStep]
        rw [hr]
      rw [hstep]
      apply ih
      · exact nodup_sortedDedup _
      · intro m hm
        have hm2 : m ∈ p.completed_chunks ++ [c] := (mem_sortedDedup _).mp hm
        by_cases hmc : m = c
        · subst hmc
          exact hrun1 m d d2 hr
        · rcases List.mem_append.mp hm2 with hm3 | hm3
          · exact hrun2 c d d2 m hr hmc (hinv m hm3)
          · exact absurd (List.mem_singleton.mp hm3) hmc

/-- C1 (amended): after `process_chunks`, the completed-chunk list is always
duplicate-free; and under the additional assumptions that it started
duplicate-free with verified artifacts and that every scraper run that
returns without raising leaves a verified-complete artifact for its own
chunk while preserving the other chunks' artifacts, every member of the
resulting completed list has a verified-complete artifact.  (Unconditional
verified-completeness fails — `process_chunks` marks a chunk completed
without re-checking the artifact, so a run whose save step failed silently
still gets marked; see the counterexample.) -/
theorem C1_theorem (runner : Nat → Dir → Option Dir) (num : Nat) (p : Progress)
    (d : Dir)
    (hnd : p.completed_chunks.Nodup)
    (hinv : ∀ m ∈ p.completed_chunks, is_chunk_completed d m = true)
    (hrun1 : ∀ n din dout, runner n din = some dout →
      is_chunk_completed dout n = true)
    (hrun2 : ∀ n din dout m, runner n din = some dout → m ≠ n →
      is_chunk_completed din m = true → is_chunk_completed dout m = true) :
    (process_chunks runner num p d).1.completed_chunks.Nodup ∧
      ∀ m ∈ (process_chunks runner num p d).1.completed_chunks,
        is_chunk_completed (process_chunks runner num p d).2 m = true := by
  unfold process_chunks
  exact process_loop_inv runner hrun1 hrun2 _ p d hnd hinv

/-- C1, as frozen, is false: a runner that returns normally without
persisting anything (exactly the behaviour of `process_spreadsheet` when its
save step fails, contact_scraper.py lines 676-685) still gets its chunk
marked completed, with no verified-complete artifact on disk. -/
theorem C1_counterexample :
    1 ∈ (process_chunks runnerNoWrite 1 progress1 []).1.completed_chunks ∧
      is_chunk_completed (process_chunks runnerNoWrite 1 progress1 []).2 1 = false :=
  ⟨by decide, by rfl⟩

/-- Witness for C1 with a runner that does write a one-row artifact for its
chunk, starting from an empty completed set over a two-chunk input. -/
theorem C1_witness :
    (process_chunks runnerWrites 2 progress2 []).1.completed_chunks.Nodup ∧
      ∀ m ∈ (process_chunks runnerWrites 2 progress2 []).1.completed_chunks,
        is_chunk_completed (process_chunks runnerWrites 2 progress2 []).2 m = true :=
  C1_theorem runnerWrites 2 progress2 [] (by decide)
    (by intro m hm; simp [progress2] at hm)
    (fun n din dout h => by
      rw [show dout = (n, Artifact.table [row0]) :: din from (Option.some.inj h).symm]
      simp [is_chunk_completed, lookupArt])
    (fun n din dout m h hmn hv => by
      rw [show dout = (n, Artifact.table [row0]) :: din from (Option.some.inj h).symm]
      unfold is_chunk_completed lookupArt at hv ⊢
      rw [List.find?_cons_of_neg]
      · exact hv
      · simp [Ne.symm hmn])

/-! ### Claim C7 -/

/-- C7: when at least one tel/call/callto/phone link yields a normalizable
phone, `extract_phones_from_html` returns exactly the (insertion-ordered)
set of those normalized link phones, and the page text plays no role at all
— the result is the same for any text, so no text-derived candidate (such
as a GPS coordinate) can ever enter it. -/
theorem C7_theorem (hrefs : List String) (text text2 : String)
    (h : extractLinkPhones hrefs ≠ []) :
    extract_phones_from_html hrefs text = extractLinkPhones hrefs ∧
      extract_phones_from_html hrefs text = extract_phones_from_html hrefs text2 := by
  unfold extract_phones_from_html
  rw [if_pos h, if_pos h]
  exact ⟨rfl, rfl⟩

/-- Witness for C7 at the spec's end-to-end scenario: a page whose text
holds the GPS pair `43.296086, 5.378054` and whose markup holds the link
`tel:+33491541952` yields exactly the phone set `{+33491541952}`. -/
theorem C7_witness :
    extractLinkPhones ["tel:+33491541952"] ≠ [] ∧
      extract_phones_from_html ["tel:+33491541952"]
          "Location: 43.296086, 5.378054" = extractLinkPhones ["tel:+33491541952"] ∧
      extractLinkPhones ["tel:+33491541952"] = ["+33491541952"] :=
  ⟨by decide,
    ( C7_theorem ["tel:+33491541952"] "Location: 43.296086, 5.378054" ""
      (by decide)).1,
    by rfl⟩
